import Mathlib

/-!
# Predusk: the single-profile content API (`src/backend/server.js`)

A shallow embedding of the request handlers of `server.js` over the schema of
`init-db.js`, followed by the theorems about them.

Modelling conventions.

* A JavaScript value of a request body is a `JsVal`; strings are sequences of
  Unicode characters, and numbers are exact decimals: `num n` is the integer
  `n`, and `dec m k` is the number `m / 10^k` when that is not an integer.
  `JSON.parse` reads the whole number grammar of JSON, fraction and exponent
  included.
* A cell of the store is a `SqlVal` (`NULL`, integer or text).  Row ids and the
  `profile_id` / `project_id` columns are integers.
* A table declared `AUTOINCREMENT` carries the largest row id ever handed out.
* What the SQLite driver does with a parameter that is an array, an object or
  a number with a fraction, and what INTEGER affinity does with a text value,
  is not in the repository: they are fields of `Engine`, and `PUT /profile`
  takes an `Engine`.
* `CURRENT_TIMESTAMP` is read once by every statement that takes it.  The
  argument `now` of a request is a `Clock`: the reading of the statement on
  the profile row, and the reading of each `INSERT INTO projects`, which the
  handler awaits one after the other, so that two rows of one request can
  differ in `created_at`.
* `ORDER BY` is a stable sort over storage order, `LIMIT 1` and `db.get` take
  the first row in storage order.
* A handler answers 500 when a statement or an expression in its `try` block
  throws: a `TypeError` on a property of `null`, a `NOT NULL` violation, a
  `SyntaxError` of `JSON.parse`.  Foreign keys are declared but not enforced.
-/

namespace Predusk

/-! ## JavaScript values -/

/-- A JavaScript value as it occurs in a parsed JSON body or as a row cell. -/
inductive JsVal where
  | undefined
  | null
  | bool (b : Bool)
  | num (n : Int)
  | dec (m : Int) (k : Nat)
  | str (s : String)
  | arr (xs : List JsVal)
  | obj (kvs : List (String × JsVal))

/-- JavaScript truthiness (`if (v)`, `v || w`, `v && w`, `v ? a : b`). -/
def truthy : JsVal → Bool
  | .undefined => false
  | .null => false
  | .bool b => b
  | .num n => n != 0
  | .dec m _ => m != 0
  | .str s => s != ""
  | .arr _ => true
  | .obj _ => true

/-- The JavaScript expression `a || b`. -/
def jsOr (a b : JsVal) : JsVal := if truthy a then a else b

/-- The JavaScript test `Array.isArray(v)`. -/
def isArray : JsVal → Bool
  | .arr _ => true
  | _ => false

/-- Own-property lookup in an object literal: the value of the first entry
with this key, `undefined` when there is none. -/
def lookupKey (k : String) : List (String × JsVal) → JsVal
  | [] => .undefined
  | (k', v) :: rest => if k' = k then v else lookupKey k rest

/-- The JavaScript expression `v.k` for the property names the handlers read
(`school`, `skill`, `links`, ...): a `TypeError` (`none`) on `undefined` and
`null`, the own property of an object, and `undefined` on every other value. -/
def getProp (v : JsVal) (k : String) : Option JsVal :=
  match v with
  | .undefined => none
  | .null => none
  | .obj kvs => some (lookupKey k kvs)
  | _ => some .undefined

/-- The number of UTF-16 code units of a string: JavaScript's `s.length`. -/
def jsLength (s : String) : Nat :=
  (s.data.map fun c => if c.toNat < 65536 then 1 else 2).sum

/-- The text JavaScript gives the number `m / 10^k` that is not an integer
(`k > 0`, `m` not a multiple of 10), with `n` the number of its digits before
the decimal point: the digits with the point among them when `0 < n ≤ 21`,
`0.` and `-n` zeros before the digits when `-6 < n ≤ 0`, and the exponent
form otherwise. -/
def decText (m : Int) (k : Nat) : String :=
  let ds := Nat.toDigits 10 m.natAbs
  let n : Int := (ds.length : Int) - (k : Int)
  let body : List Char :=
    if 0 < n ∧ n ≤ 21 then ds.take n.toNat ++ '.' :: ds.drop n.toNat
    else if -6 < n ∧ n ≤ 0 then '0' :: '.' :: (List.replicate (-n).toNat '0' ++ ds)
    else
      (match ds with
        | [] => []
        | [d] => [d]
        | d :: rest => d :: '.' :: rest) ++
      'e' :: (if 0 < n then '+' else '-') :: Nat.toDigits 10 (n - 1).natAbs
  String.mk (if m < 0 then '-' :: body else body)

mutual
/-- JavaScript `String(v)`. -/
def jsToString : JsVal → String
  | .undefined => "undefined"
  | .null => "null"
  | .bool b => if b then "true" else "false"
  | .num n => toString n
  | .dec m k => decText m k
  | .str s => s
  | .arr xs => joinElems xs
  | .obj _ => "[object Object]"
/-- The text of `Array.prototype.join(",")`. -/
def joinElems : List JsVal → String
  | [] => ""
  | [x] => elemText x
  | x :: y :: r => elemText x ++ "," ++ joinElems (y :: r)
/-- The text of one array element inside `join`: empty for `null` and
`undefined`. -/
def elemText : JsVal → String
  | .undefined => ""
  | .null => ""
  | .bool b => if b then "true" else "false"
  | .num n => toString n
  | .dec m k => decText m k
  | .str s => s
  | .arr xs => joinElems xs
  | .obj _ => "[object Object]"
end

/-! ## Store values -/

/-- A cell of the store. -/
inductive SqlVal where
  | null
  | int (n : Int)
  | text (s : String)
  deriving DecidableEq, Repr

/-- The JavaScript value the driver hands back for a cell. -/
def toJs : SqlVal → JsVal
  | .null => .null
  | .int n => .num n
  | .text s => .str s

/-- The conversions of the store engine that the repository does not fix. -/
structure Engine where
  /-- The cell bound for a parameter that is an array or an object. -/
  bindObject : JsVal → SqlVal
  /-- The cell kept for a parameter that is the number `m / 10^k`, not an
  integer. -/
  bindFraction : Int → Nat → SqlVal
  /-- The cell an INTEGER-affinity column keeps for a text value. -/
  numericText : String → SqlVal

/-- Parameter binding of the driver: `undefined` and `null` bind `NULL`,
booleans bind 0 or 1, integers and strings bind themselves. -/
def Engine.bind (E : Engine) : JsVal → SqlVal
  | .undefined => .null
  | .null => .null
  | .bool b => .int (if b then 1 else 0)
  | .num n => .int n
  | .dec m k => E.bindFraction m k
  | .str s => .text s
  | .arr xs => E.bindObject (.arr xs)
  | .obj kvs => E.bindObject (.obj kvs)

/-- TEXT affinity: an integer is kept as its decimal text. -/
def textAffinity : SqlVal → SqlVal
  | .int n => .text (toString n)
  | v => v

/-- INTEGER affinity: a text value is converted when the engine reads it as a
number. -/
def Engine.intAffinity (E : Engine) : SqlVal → SqlVal
  | .text s => E.numericText s
  | v => v

/-- A parameter bound into a TEXT column. -/
def Engine.textCell (E : Engine) (v : JsVal) : SqlVal := textAffinity (E.bind v)

/-- A parameter bound into an INTEGER column. -/
def Engine.intCell (E : Engine) (v : JsVal) : SqlVal := E.intAffinity (E.bind v)

/-- The value of a run of decimal digits, `none` when another character
occurs in it. -/
def digitsVal (acc : Nat) : List Char → Option Nat
  | [] => some acc
  | c :: cs =>
    if 48 ≤ c.toNat ∧ c.toNat ≤ 57 then digitsVal (acc * 10 + (c.toNat - 48)) cs else none

/-- An engine for evaluating examples: arrays, objects and numbers with a
fraction bind their string conversion, and a text of decimal digits (with an
optional minus sign) is read as that integer. -/
def Engine.sample : Engine where
  bindObject := fun v => .text (jsToString v)
  bindFraction := fun m k => .text (decText m k)
  numericText := fun s => match s.data with
    | [] => .text s
    | '-' :: c :: cs => match digitsVal 0 (c :: cs) with
      | some n => .int (-(n : Int))
      | none => .text s
    | c :: cs => match digitsVal 0 (c :: cs) with
      | some n => .int n
      | none => .text s

/-- Bytewise comparison of two texts (`memcmp` order of their UTF-8 forms,
which is the lexicographic order of their code points). -/
def charsLe : List Char → List Char → Bool
  | [], _ => true
  | _ :: _, [] => false
  | a :: as, b :: bs => decide (a.toNat < b.toNat) || (decide (a.toNat = b.toNat) && charsLe as bs)

/-- The order `ORDER BY` sorts cells in: `NULL` first, then integers by value,
then texts bytewise. -/
def sqlLe : SqlVal → SqlVal → Bool
  | .null, _ => true
  | .int _, .null => false
  | .int a, .int b => decide (a ≤ b)
  | .int _, .text _ => true
  | .text _, .null => false
  | .text _, .int _ => false
  | .text a, .text b => charsLe a.data b.data

/-- The relation of `ORDER BY key DESC`: `a` may stand before `b`. -/
def descBy {α : Type} (key : α → SqlVal) (a b : α) : Prop := sqlLe (key b) (key a) = true

instance {α : Type} (key : α → SqlVal) : DecidableRel (descBy key) :=
  fun a b => inferInstanceAs (Decidable (sqlLe (key b) (key a) = true))

/-- Rows in the order of `ORDER BY key DESC`, ties in storage order. -/
def orderByDesc {α : Type} (key : α → SqlVal) (rows : List α) : List α :=
  rows.insertionSort (descBy key)

/-- The rows of `SELECT DISTINCT`: the first occurrence of each row. -/
def distinct {α : Type} [DecidableEq α] : List α → List α
  | [] => []
  | a :: l => a :: (distinct l).filter (fun b => b ≠ a)

/-- ASCII lower-casing, the case folding of `LIKE`. -/
def lowerAscii (c : Char) : Char :=
  if 65 ≤ c.toNat ∧ c.toNat ≤ 90 then Char.ofNat (c.toNat + 32) else c

/-- Matching of a `LIKE` pattern against a text: `%` stands for any run of
characters, `_` for one character, any other character for itself up to
ASCII case. -/
def likeChars : List Char → List Char → Bool
  | [], t => t.isEmpty
  | p :: ps, t =>
    if p = '%' then t.tails.any (fun t' => likeChars ps t')
    else match t with
      | [] => false
      | c :: t' =>
        if p = '_' then likeChars ps t'
        else decide (lowerAscii p = lowerAscii c) && likeChars ps t'

/-- The SQL test `v LIKE pat`, selecting a row only when it is true: never on
`NULL`, on the decimal text of an integer, on a text itself. -/
def sqlLike (pat : String) : SqlVal → Bool
  | .null => false
  | .int n => likeChars pat.data (toString n).data
  | .text s => likeChars pat.data s.data

/-! ## JSON text: `JSON.stringify` and `JSON.parse` -/

/-- The lower-case hexadecimal digit of a number below 16. -/
def hexDigit (n : Nat) : Char :=
  if n < 10 then Char.ofNat (48 + n) else Char.ofNat (87 + n)

/-- The JSON text of one character of a string: the short escapes, a
`\u00XX` escape for the other control characters, the character itself
otherwise. -/
def quoteChar (c : Char) : List Char :=
  if c = '"' then ['\\', '"']
  else if c = '\\' then ['\\', '\\']
  else if c.toNat = 8 then ['\\', 'b']
  else if c.toNat = 9 then ['\\', 't']
  else if c.toNat = 10 then ['\\', 'n']
  else if c.toNat = 12 then ['\\', 'f']
  else if c.toNat = 13 then ['\\', 'r']
  else if c.toNat < 32 then
    ['\\', 'u', '0', '0', hexDigit (c.toNat / 16), hexDigit (c.toNat % 16)]
  else [c]

/-- The characters of a string between its quotes. -/
def quoteBody : List Char → List Char
  | [] => []
  | c :: cs => quoteChar c ++ quoteBody cs

/-- The JSON text of a string. -/
def quote (s : String) : List Char := '"' :: (quoteBody s.data ++ ['"'])

mutual
/-- The JSON text of a value; `undefined` inside an array reads `null`. -/
def stringifyChars : JsVal → List Char
  | .undefined => "null".data
  | .null => "null".data
  | .bool b => if b then "true".data else "false".data
  | .num n => (toString n).data
  | .dec m k => (decText m k).data
  | .str s => quote s
  | .arr xs => '[' :: (stringifyElems xs ++ [']'])
  | .obj kvs => '{' :: (stringifyMembers kvs ++ ['}'])
/-- The JSON texts of the elements of an array, comma separated. -/
def stringifyElems : List JsVal → List Char
  | [] => []
  | [x] => stringifyChars x
  | x :: y :: r => stringifyChars x ++ ',' :: stringifyElems (y :: r)
/-- The JSON texts of the members of an object, comma separated; a member
whose value is `undefined` is left out. -/
def stringifyMembers : List (String × JsVal) → List Char
  | [] => []
  | (_, .undefined) :: r => stringifyMembers r
  | (k, v) :: r =>
    match stringifyMembers r with
    | [] => quote k ++ ':' :: stringifyChars v
    | t :: ts => quote k ++ ':' :: (stringifyChars v ++ ',' :: t :: ts)
end

/-- JavaScript `JSON.stringify(v)`: `undefined` for `undefined`, the JSON text
otherwise. -/
def JSON.stringify : JsVal → JsVal
  | .undefined => .undefined
  | v => .str (String.mk (stringifyChars v))

/-- JSON white space. -/
def isWs (c : Char) : Bool := c = ' ' || c = '\t' || c = '\n' || c = '\r'

/-- The input after its leading white space. -/
def skipWs : List Char → List Char
  | [] => []
  | c :: cs => if isWs c then skipWs cs else c :: cs

/-- The value of a hexadecimal digit. -/
def hexVal (c : Char) : Option Nat :=
  if 48 ≤ c.toNat ∧ c.toNat ≤ 57 then some (c.toNat - 48)
  else if 97 ≤ c.toNat ∧ c.toNat ≤ 102 then some (c.toNat - 87)
  else if 65 ≤ c.toNat ∧ c.toNat ≤ 70 then some (c.toNat - 55)
  else none

/-- The value of four hexadecimal digits. -/
def hex4 (a b c d : Char) : Option Nat :=
  match hexVal a, hexVal b, hexVal c, hexVal d with
  | some a, some b, some c, some d => some (((a * 16 + b) * 16 + c) * 16 + d)
  | _, _, _, _ => none

/-- The character a one-letter escape stands for. -/
def unescape (e : Char) : Option Char :=
  if e = '"' then some '"'
  else if e = '\\' then some '\\'
  else if e = '/' then some '/'
  else if e = 'b' then some (Char.ofNat 8)
  else if e = 't' then some (Char.ofNat 9)
  else if e = 'n' then some (Char.ofNat 10)
  else if e = 'f' then some (Char.ofNat 12)
  else if e = 'r' then some (Char.ofNat 13)
  else none

/-- Prepends a code unit to the units already read. -/
def consUnit (n : Nat) (r : Option (List Nat × List Char)) : Option (List Nat × List Char) :=
  match r with
  | some (us, rest) => some (n :: us, rest)
  | none => none

/-- Reads a JSON string after its opening quote: the code units of the string
(a code point for a literal character, the 16-bit value for a `\u` escape)
and the input after the closing quote.  A raw control character, an unknown
escape and a missing closing quote are errors. -/
def parseStr : List Char → Option (List Nat × List Char)
  | [] => none
  | c :: rest =>
    if c = '"' then some ([], rest)
    else if c = '\\' then
      match rest with
      | [] => none
      | e :: rest1 =>
        if e = 'u' then
          match rest1 with
          | h1 :: h2 :: h3 :: h4 :: rest2 =>
            match hex4 h1 h2 h3 h4 with
            | some n => consUnit n (parseStr rest2)
            | none => none
          | _ => none
        else
          match unescape e with
          | some ch => consUnit ch.toNat (parseStr rest1)
          | none => none
    else if c.toNat < 32 then none
    else consUnit c.toNat (parseStr rest)

/-- The characters of a run of code units: a high surrogate followed by a low
one is their supplementary character, a surrogate on its own is U+FFFD. -/
def combineUnits : List Nat → List Char
  | [] => []
  | [n] => [if 55296 ≤ n ∧ n < 57344 then Char.ofNat 65533 else Char.ofNat n]
  | n :: m :: r =>
    if 55296 ≤ n ∧ n < 56320 ∧ 56320 ≤ m ∧ m < 57344 then
      Char.ofNat (65536 + (n - 55296) * 1024 + (m - 56320)) :: combineUnits r
    else
      (if 55296 ≤ n ∧ n < 57344 then Char.ofNat 65533 else Char.ofNat n) :: combineUnits (m :: r)

/-- Reads a JSON string after its opening quote. -/
def parseString (cs : List Char) : Option (String × List Char) :=
  match parseStr cs with
  | some (us, rest) => some (String.mk (combineUnits us), rest)
  | none => none

/-- Reads the integer part of a JSON number: `0`, or a run of digits that does
not start with `0`. -/
def parseNat : List Char → Option (Nat × List Char)
  | [] => none
  | c :: rest =>
    if c = '0' then some (0, rest)
    else if 49 ≤ c.toNat ∧ c.toNat ≤ 57 then
      let ds := rest.takeWhile (fun d => 48 ≤ d.toNat ∧ d.toNat ≤ 57)
      some (ds.foldl (fun acc d => acc * 10 + (d.toNat - 48)) (c.toNat - 48),
        rest.dropWhile (fun d => 48 ≤ d.toNat ∧ d.toNat ≤ 57))
    else none

/-- A decimal digit. -/
def isDigit (c : Char) : Bool := decide (48 ≤ c.toNat ∧ c.toNat ≤ 57)

/-- The number a run of digits makes when appended to the digits of `n`. -/
def appendDigits (n : Nat) (ds : List Char) : Nat :=
  ds.foldl (fun acc d => acc * 10 + (d.toNat - 48)) n

/-- Reads the optional fraction of a JSON number after the integer part `n`:
a point and at least one digit.  Gives the digits of both as one number and
the count of the digits after the point. -/
def parseFraction (n : Nat) : List Char → Option ((Nat × Nat) × List Char)
  | [] => some ((n, 0), [])
  | c :: rest =>
    if c = '.' then
      if (rest.takeWhile isDigit).isEmpty then none
      else some ((appendDigits n (rest.takeWhile isDigit), (rest.takeWhile isDigit).length),
        rest.dropWhile isDigit)
    else some ((n, 0), c :: rest)

/-- Reads the digits of an exponent, at least one. -/
def parseExponentDigits (cs : List Char) : Option (Nat × List Char) :=
  if (cs.takeWhile isDigit).isEmpty then none
  else some (appendDigits 0 (cs.takeWhile isDigit), cs.dropWhile isDigit)

/-- Reads the optional exponent of a JSON number: `e` or `E`, an optional
sign, and at least one digit. -/
def parseExponent : List Char → Option (Int × List Char)
  | [] => some (0, [])
  | c :: rest =>
    if c = 'e' ∨ c = 'E' then
      match rest with
      | [] => none
      | d :: rest1 =>
        if d = '-' then
          match parseExponentDigits rest1 with
          | some (x, rest2) => some (-(x : Int), rest2)
          | none => none
        else if d = '+' then
          match parseExponentDigits rest1 with
          | some (x, rest2) => some ((x : Int), rest2)
          | none => none
        else
          match parseExponentDigits (d :: rest1) with
          | some (x, rest2) => some ((x : Int), rest2)
          | none => none
    else some (0, c :: rest)

/-- The value `m / 10^k` as a JavaScript number: an integer when the division
is exact. -/
def scaled (m : Int) : Nat → JsVal
  | 0 => .num m
  | k + 1 => if m % 10 = 0 then scaled (m / 10) k else .dec m (k + 1)

/-- The JavaScript number `m * 10^x`. -/
def decimal (m : Int) (x : Int) : JsVal :=
  if 0 ≤ x then .num (m * 10 ^ x.toNat) else scaled m (-x).toNat

/-- Reads a JSON number after its sign: integer part, optional fraction,
optional exponent.  Gives the digits `m` and the power of ten `x` of the
value `m * 10^x`. -/
def parseNumber (cs : List Char) : Option ((Nat × Int) × List Char) :=
  match parseNat cs with
  | none => none
  | some (n, rest) =>
    match parseFraction n rest with
    | none => none
    | some ((m, k), rest1) =>
      match parseExponent rest1 with
      | none => none
      | some (x, rest2) => some ((m, x - (k : Int)), rest2)

/-- Sets a member of an object under construction: a repeated key keeps its
place and takes the later value. -/
def setKey (k : String) (v : JsVal) : List (String × JsVal) → List (String × JsVal)
  | [] => [(k, v)]
  | (k', v') :: r => if k' = k then (k, v) :: r else (k', v') :: setKey k v r

mutual
/-- Reads one JSON value; the fuel bounds the number of nested calls. -/
def parseValue : Nat → List Char → Option (JsVal × List Char)
  | 0, _ => none
  | fuel + 1, cs =>
    match skipWs cs with
    | [] => none
    | c :: rest =>
      if c = '"' then
        match parseString rest with
        | some (s, rest1) => some (.str s, rest1)
        | none => none
      else if c = '[' then
        match skipWs rest with
        | [] => none
        | d :: rest1 =>
          if d = ']' then some (.arr [], rest1)
          else
            match parseElems fuel (d :: rest1) with
            | some (vs, rest2) => some (.arr vs, rest2)
            | none => none
      else if c = '{' then
        match skipWs rest with
        | [] => none
        | d :: rest1 =>
          if d = '}' then some (.obj [], rest1)
          else
            match parseMembers fuel (d :: rest1) with
            | some (kvs, rest2) => some (.obj (kvs.foldl (fun acc kv => setKey kv.1 kv.2 acc) []), rest2)
            | none => none
      else if c = '-' then
        match parseNumber rest with
        | some ((m, x), rest1) => some (decimal (-(m : Int)) x, rest1)
        | none => none
      else
        match c :: rest with
        | 't' :: 'r' :: 'u' :: 'e' :: rest1 => some (.bool true, rest1)
        | 'f' :: 'a' :: 'l' :: 's' :: 'e' :: rest1 => some (.bool false, rest1)
        | 'n' :: 'u' :: 'l' :: 'l' :: rest1 => some (.null, rest1)
        | other =>
          match parseNumber other with
          | some ((m, x), rest1) => some (decimal (m : Int) x, rest1)
          | none => none
/-- Reads the elements of a non-empty array up to its closing bracket. -/
def parseElems : Nat → List Char → Option (List JsVal × List Char)
  | 0, _ => none
  | fuel + 1, cs =>
    match parseValue fuel cs with
    | none => none
    | some (v, rest) =>
      match skipWs rest with
      | [] => none
      | d :: rest1 =>
        if d = ',' then
          match parseElems fuel rest1 with
          | some (vs, rest2) => some (v :: vs, rest2)
          | none => none
        else if d = ']' then some ([v], rest1)
        else none
/-- Reads the members of a non-empty object up to its closing brace. -/
def parseMembers : Nat → List Char → Option (List (String × JsVal) × List Char)
  | 0, _ => none
  | fuel + 1, cs =>
    match skipWs cs with
    | [] => none
    | q :: rest =>
      if q = '"' then
        match parseString rest with
        | none => none
        | some (k, rest1) =>
          match skipWs rest1 with
          | [] => none
          | col :: rest2 =>
            if col = ':' then
              match parseValue fuel rest2 with
              | none => none
              | some (v, rest3) =>
                match skipWs rest3 with
                | [] => none
                | d :: rest4 =>
                  if d = ',' then
                    match parseMembers fuel rest4 with
                    | some (kvs, rest5) => some ((k, v) :: kvs, rest5)
                    | none => none
                  else if d = '}' then some ([(k, v)], rest4)
                  else none
            else none
      else none
end

/-- JavaScript `JSON.parse(text)`: the value read when the whole text is one
JSON value, `none` for the `SyntaxError` otherwise.  The fuel, twice the
length of the text and two, covers every nesting the text can hold. -/
def JSON.parse (text : String) : Option JsVal :=
  match parseValue (2 * text.data.length + 2) text.data with
  | some (v, rest) => if skipWs rest = [] then some v else none
  | none => none

/-! ## The store (`init-db.js`, `initializeSchema`) -/

/-- A row of `profile`. -/
structure ProfileRow where
  id : Int
  name : SqlVal
  email : SqlVal
  bio : SqlVal
  created_at : SqlVal
  updated_at : SqlVal
  deriving DecidableEq, Repr

/-- A row of `education`. -/
structure EducationRow where
  id : Int
  profile_id : Int
  school : SqlVal
  degree : SqlVal
  field : SqlVal
  start_date : SqlVal
  end_date : SqlVal
  deriving DecidableEq, Repr

/-- A row of `skills`. -/
structure SkillRow where
  id : Int
  profile_id : Int
  skill : SqlVal
  proficiency : SqlVal
  deriving DecidableEq, Repr

/-- A row of `projects`; `links` is the stored text. -/
structure ProjectRow where
  id : Int
  profile_id : Int
  title : SqlVal
  description : SqlVal
  links : SqlVal
  created_at : SqlVal
  deriving DecidableEq, Repr

/-- A row of `project_skills`. -/
structure ProjectSkillRow where
  id : Int
  project_id : Int
  skill : SqlVal
  deriving DecidableEq, Repr

/-- A row of `work`. -/
structure WorkRow where
  id : Int
  profile_id : Int
  company : SqlVal
  position : SqlVal
  start_date : SqlVal
  end_date : SqlVal
  description : SqlVal
  deriving DecidableEq, Repr

/-- A row of `links`. -/
structure LinksRow where
  id : Int
  profile_id : Int
  github : SqlVal
  linkedin : SqlVal
  portfolio : SqlVal
  resume : SqlVal
  deriving DecidableEq, Repr

/-- A table with an `AUTOINCREMENT` key: its rows in storage order and the
largest row id handed out so far. -/
structure Table (ρ : Type) where
  rows : List ρ
  seq : Int
  deriving DecidableEq, Repr

/-- The seven tables. -/
structure Store where
  profile : List ProfileRow
  education : Table EducationRow
  skills : Table SkillRow
  projects : Table ProjectRow
  project_skills : Table ProjectSkillRow
  work : Table WorkRow
  links : Table LinksRow
  deriving DecidableEq, Repr

/-- The id `AUTOINCREMENT` gives the next row: one more than the largest id
that is or ever was in the table. -/
def nextId (ids : List Int) (seq : Int) : Int := ids.foldl max seq + 1

/-- The statement `INSERT` on a table with an `AUTOINCREMENT` key: the row
built for the fresh id is stored last. -/
def Table.insert {ρ : Type} (t : Table ρ) (idOf : ρ → Int) (mk : Int → ρ) : Table ρ :=
  { rows := t.rows ++ [mk (nextId (t.rows.map idOf) t.seq)]
    seq := nextId (t.rows.map idOf) t.seq }

/-- The statement `DELETE FROM t WHERE profile_id = pid`. -/
def Table.deleteWhere {ρ : Type} (t : Table ρ) (pidOf : ρ → Int) (pid : Int) : Table ρ :=
  { t with rows := t.rows.filter (fun r => pidOf r ≠ pid) }

/-! ## `PUT /profile` -/

/-- The body of `PUT /profile` after destructuring: a field that is absent is
`undefined`. -/
structure Payload where
  name : JsVal
  email : JsVal
  bio : JsVal
  education : JsVal
  skills : JsVal
  projects : JsVal
  work : JsVal
  links : JsVal

/-- The readings of `CURRENT_TIMESTAMP` during one run of a handler or of the
setup routine, one for each statement that takes one. -/
structure Clock where
  /-- The reading of the `UPDATE` or `INSERT` of the profile row. -/
  profile : String
  /-- The reading of the `INSERT INTO projects` that is the `i`-th of the
  run, counted from 0. -/
  project : Nat → String

/-- The elements a `for ... of` loop visits. -/
def elements : JsVal → List JsVal
  | .arr xs => xs
  | _ => []

/-- A loop of awaited inserts: the first one that throws ends the loop and
keeps what was stored before it. -/
def insertAll {τ α : Type} (ins : τ → α → Option τ) : τ → List α → τ × Bool
  | t, [] => (t, true)
  | t, x :: xs =>
    match ins t x with
    | none => (t, false)
    | some t' => insertAll ins t' xs

/-- The existing-profile branch or the insert branch of the handler: `UPDATE
profile SET ... WHERE id = ?` or `INSERT INTO profile (id, ...)`.  `name` and
`email` are `NOT NULL`. -/
def upsertProfile (E : Engine) (now : Clock) (body : Payload) (s : Store) : Store × Bool :=
  let name := E.textCell body.name
  let email := E.textCell body.email
  let bio := E.textCell body.bio
  match s.profile.head? with
  | some existingProfile =>
    if name = .null ∨ email = .null then (s, false)
    else
      ({ s with profile := s.profile.map fun r =>
          if r.id = existingProfile.id then
            { r with name := name, email := email, bio := bio,
                     updated_at := .text now.profile }
          else r }, true)
  | none =>
    if name = .null ∨ email = .null then (s, false)
    else
      ({ s with profile := s.profile ++
          [{ id := 1, name := name, email := email, bio := bio,
             created_at := .text now.profile, updated_at := .text now.profile }] }, true)

/-- The row of one `INSERT INTO education` but for its id; `none` when a
parameter throws or `school`, which is `NOT NULL`, is bound `NULL`. -/
def educationRow (E : Engine) (profileId : Int) (edu : JsVal) : Option (Int → EducationRow) :=
  match getProp edu "school", getProp edu "degree", getProp edu "field",
      getProp edu "start_date", getProp edu "end_date" with
  | some school, some degree, some field, some start_date, some end_date =>
    if E.textCell school = .null then none
    else some fun id =>
      { id := id, profile_id := profileId, school := E.textCell school,
        degree := E.textCell degree, field := E.textCell field,
        start_date := E.textCell start_date, end_date := E.textCell end_date }
  | _, _, _, _, _ => none

/-- The row of one `INSERT INTO skills` but for its id, with the parameters
`skill.skill || skill` and `skill.proficiency || 5`; `skill` is `NOT NULL`. -/
def skillRow (E : Engine) (profileId : Int) (skill : JsVal) : Option (Int → SkillRow) :=
  match getProp skill "skill", getProp skill "proficiency" with
  | some name, some proficiency =>
    if E.textCell (jsOr name skill) = .null then none
    else some fun id =>
      { id := id, profile_id := profileId, skill := E.textCell (jsOr name skill),
        proficiency := E.intCell (jsOr proficiency (.num 5)) }
  | _, _ => none

/-- The row of one `INSERT INTO projects` but for its id, with the parameter
`JSON.stringify(proj.links || [])`; `title` is `NOT NULL`, `created_at` takes
its default, the reading `createdAt` of `CURRENT_TIMESTAMP` when the
statement runs. -/
def projectRow (E : Engine) (createdAt : String) (profileId : Int) (proj : JsVal) :
    Option (Int → ProjectRow) :=
  match getProp proj "title", getProp proj "description", getProp proj "links" with
  | some title, some description, some links =>
    if E.textCell title = .null then none
    else some fun id =>
      { id := id, profile_id := profileId, title := E.textCell title,
        description := E.textCell description,
        links := E.textCell (JSON.stringify (jsOr links (.arr []))),
        created_at := .text createdAt }
  | _, _, _ => none

/-- The row of one `INSERT INTO work` but for its id; `company` and
`position` are `NOT NULL`. -/
def workRow (E : Engine) (profileId : Int) (job : JsVal) : Option (Int → WorkRow) :=
  match getProp job "company", getProp job "position", getProp job "start_date",
      getProp job "end_date", getProp job "description" with
  | some company, some position, some start_date, some end_date, some description =>
    if E.textCell company = .null ∨ E.textCell position = .null then none
    else some fun id =>
      { id := id, profile_id := profileId, company := E.textCell company,
        position := E.textCell position, start_date := E.textCell start_date,
        end_date := E.textCell end_date, description := E.textCell description }
  | _, _, _, _, _ => none

/-- One awaited `INSERT` of the loop: the statement throws when its row
cannot be built, and stores the row under a fresh id otherwise. -/
def insertRow {ρ α : Type} (idOf : ρ → Int) (row : α → Option (Int → ρ)) (t : Table ρ)
    (x : α) : Option (Table ρ) :=
  match row x with
  | some mk => some (t.insert idOf mk)
  | none => none

/-- The pattern the handler repeats for each child table: `DELETE ... WHERE
profile_id = ?`, then, `if (field && Array.isArray(field))`, one insert per
element. -/
def replaceRows {ρ : Type} (pidOf : ρ → Int) (ins : Table ρ → JsVal → Option (Table ρ))
    (profileId : Int) (field : JsVal) (t : Table ρ) : Table ρ × Bool :=
  if truthy field && isArray field then
    insertAll ins (t.deleteWhere pidOf profileId) (elements field)
  else (t.deleteWhere pidOf profileId, true)

/-- The `if (links)` block: `UPDATE links ... WHERE profile_id = ?` when a
row exists for the profile, `INSERT INTO links` otherwise. -/
def upsertLinks (E : Engine) (profileId : Int) (links : JsVal) (t : Table LinksRow) :
    Table LinksRow × Bool :=
  if truthy links then
    match getProp links "github", getProp links "linkedin", getProp links "portfolio",
        getProp links "resume" with
    | some github, some linkedin, some portfolio, some resume =>
      match t.rows.find? (fun r => r.profile_id = profileId) with
      | some _ =>
        ({ t with rows := t.rows.map fun r =>
            if r.profile_id = profileId then
              { r with github := E.textCell github, linkedin := E.textCell linkedin,
                       portfolio := E.textCell portfolio, resume := E.textCell resume }
            else r }, true)
      | none =>
        (t.insert (fun r => r.id) fun id =>
          { id := id, profile_id := profileId, github := E.textCell github,
            linkedin := E.textCell linkedin, portfolio := E.textCell portfolio,
            resume := E.textCell resume }, true)
    | _, _, _, _ => (t, false)
  else (t, true)

/-- Sequencing of awaited statements inside the `try`: once one has thrown,
the rest do not run. -/
def andThen (r : Store × Bool) (f : Store → Store × Bool) : Store × Bool :=
  if r.2 then f r.1 else r

/-- The id the handler writes to: `existingProfile ? existingProfile.id : 1`. -/
def targetId (s : Store) : Int :=
  match s.profile.head? with
  | some existingProfile => existingProfile.id
  | none => 1

/-- The education block of the handler. -/
def replaceEducation (E : Engine) (profileId : Int) (education : JsVal)
    (t : Table EducationRow) : Table EducationRow × Bool :=
  replaceRows (fun r => r.profile_id) (insertRow (fun r => r.id) (educationRow E profileId))
    profileId education t

/-- The skills block of the handler. -/
def replaceSkills (E : Engine) (profileId : Int) (skills : JsVal)
    (t : Table SkillRow) : Table SkillRow × Bool :=
  replaceRows (fun r => r.profile_id) (insertRow (fun r => r.id) (skillRow E profileId))
    profileId skills t

/-- The projects block of the handler: the same pattern, where the awaited
`INSERT` of the project at position `i` of the array takes the reading of
the clock for the `i`-th insert. -/
def replaceProjects (E : Engine) (now : Clock) (profileId : Int) (projects : JsVal)
    (t : Table ProjectRow) : Table ProjectRow × Bool :=
  if truthy projects && isArray projects then
    insertAll
      (insertRow (fun r => r.id)
        (fun proj : Nat × JsVal => projectRow E (now.project proj.1) profileId proj.2))
      (t.deleteWhere (fun r => r.profile_id) profileId) (elements projects).enum
  else (t.deleteWhere (fun r => r.profile_id) profileId, true)

/-- The work block of the handler. -/
def replaceWork (E : Engine) (profileId : Int) (work : JsVal)
    (t : Table WorkRow) : Table WorkRow × Bool :=
  replaceRows (fun r => r.profile_id) (insertRow (fun r => r.id) (workRow E profileId))
    profileId work t

/-- The handler of `PUT /profile`: the store it leaves and whether it answered
`{success: true}` (`true`) or caught an error and answered 500 (`false`). -/
def putProfile (E : Engine) (now : Clock) (s : Store) (body : Payload) : Store × Bool :=
  let profileId := targetId s
  andThen (andThen (andThen (andThen (andThen (upsertProfile E now body s)
    (fun s =>
      let r := replaceEducation E profileId body.education s.education
      ({ s with education := r.1 }, r.2)))
    (fun s =>
      let r := replaceSkills E profileId body.skills s.skills
      ({ s with skills := r.1 }, r.2)))
    (fun s =>
      let r := replaceProjects E now profileId body.projects s.projects
      ({ s with projects := r.1 }, r.2)))
    (fun s =>
      let r := replaceWork E profileId body.work s.work
      ({ s with work := r.1 }, r.2)))
    (fun s =>
      let r := upsertLinks E profileId body.links s.links
      ({ s with links := r.1 }, r.2))

/-- A store with no rows. -/
def emptyStore : Store :=
  { profile := [], education := ⟨[], 0⟩, skills := ⟨[], 0⟩, projects := ⟨[], 0⟩,
    project_skills := ⟨[], 0⟩, work := ⟨[], 0⟩, links := ⟨[], 0⟩ }

/-- A body with `name` and `email` and no other field. -/
def barePayload : Payload :=
  { name := .str "Ada", email := .str "ada@example.org", bio := .undefined,
    education := .undefined, skills := .undefined, projects := .undefined,
    work := .undefined, links := .undefined }

/-! ## The read handlers -/

/-- The answer of a read handler: a 200 with its body, the 404 of
`GET /profile`, or the 500 of a caught error. -/
inductive Reply (α : Type) where
  | ok (body : α)
  | notFound
  | serverError

/-- The body of `GET /profile`: the columns of the profile row, the child
rows as the queries return them, the skill names, and the links row (`none`
for the empty object of `links || {}`). -/
structure ProfileView where
  profile : ProfileRow
  education : List EducationRow
  skills : List SqlVal
  projects : List ProjectRow
  work : List WorkRow
  links : Option LinksRow
  deriving DecidableEq, Repr

/-- The handler of `GET /profile`. -/
def getProfile (s : Store) : Reply ProfileView :=
  match s.profile.head? with
  | none => .notFound
  | some profile =>
    .ok
      { profile := profile
        education := s.education.rows.filter (fun r => r.profile_id = profile.id)
        skills := (orderByDesc (fun r : SkillRow => r.proficiency)
          (s.skills.rows.filter (fun r => r.profile_id = profile.id))).map (fun r => r.skill)
        projects := orderByDesc (fun r : ProjectRow => r.created_at)
          (s.projects.rows.filter (fun r => r.profile_id = profile.id))
        work := orderByDesc (fun r : WorkRow => r.start_date)
          (s.work.rows.filter (fun r => r.profile_id = profile.id))
        links := s.links.rows.find? (fun r => r.profile_id = profile.id) }

/-- An element of the body of `GET /projects`: the row with `links` replaced
by the deserialized value. -/
structure ProjectView where
  id : Int
  profile_id : Int
  title : SqlVal
  description : SqlVal
  links : JsVal
  created_at : SqlVal

/-- The expression `p.links ? JSON.parse(p.links) : []` on a stored cell;
`none` when `JSON.parse` throws. -/
def readLinks (links : SqlVal) : Option JsVal :=
  if truthy (toJs links) then JSON.parse (jsToString (toJs links)) else some (.arr [])

/-- The callback of `projects.map` in `GET /projects`. -/
def withLinks (p : ProjectRow) : Option ProjectView :=
  match readLinks p.links with
  | some links =>
    some { id := p.id, profile_id := p.profile_id, title := p.title,
           description := p.description, links := links, created_at := p.created_at }
  | none => none

/-- The loop of `projects.map`: the first element whose callback throws makes
the whole map throw. -/
def mapWithLinks : List ProjectRow → Option (List ProjectView)
  | [] => some []
  | p :: ps =>
    match withLinks p, mapWithLinks ps with
    | some v, some vs => some (v :: vs)
    | _, _ => none

/-- A query parameter as the JavaScript value the handler sees. -/
def queryParam : Option String → JsVal
  | none => .undefined
  | some x => .str x

/-- The cell bound for the `skill` parameter of `GET /projects`. -/
def skillCell : Option String → SqlVal
  | none => .null
  | some x => .text x

/-- The rows the query of `GET /projects` returns: without `skill` the
projects of profile 1, with it those whose id is among the `project_id`s of
the `project_skills` rows with that skill; both by `created_at` descending. -/
def projectsQuery (s : Store) (skill : Option String) : List ProjectRow :=
  if truthy (queryParam skill) then
    orderByDesc (fun r : ProjectRow => r.created_at)
      (distinct (s.projects.rows.filter fun r =>
        decide (r.profile_id = 1) &&
          decide (r.id ∈ distinct ((s.project_skills.rows.filter
            (fun k => k.skill = skillCell skill)).map (fun k => k.project_id)))))
  else
    orderByDesc (fun r : ProjectRow => r.created_at)
      (s.projects.rows.filter (fun r => r.profile_id = 1))

/-- The handler of `GET /projects`. -/
def getProjects (s : Store) (skill : Option String) : Reply (List ProjectView) :=
  match mapWithLinks (projectsQuery s skill) with
  | some projectsWithLinks => .ok projectsWithLinks
  | none => .serverError

/-- An element of the body of `GET /skills/top`. -/
structure TopSkill where
  skill : SqlVal
  proficiency : SqlVal
  deriving DecidableEq, Repr

/-- The handler of `GET /skills/top`: `SELECT skill, proficiency FROM skills
WHERE profile_id = 1 ORDER BY proficiency DESC LIMIT 10`. -/
def getSkillsTop (s : Store) : List TopSkill :=
  ((orderByDesc (fun r : SkillRow => r.proficiency)
    (s.skills.rows.filter (fun r => r.profile_id = 1))).take 10).map
      fun r => { skill := r.skill, proficiency := r.proficiency }

/-- An element of `projects` in the body of `GET /search`. -/
structure FoundProject where
  title : SqlVal
  description : SqlVal
  deriving DecidableEq, Repr

/-- An element of `education` in the body of `GET /search`. -/
structure FoundEducation where
  school : SqlVal
  degree : SqlVal
  field : SqlVal
  deriving DecidableEq, Repr

/-- The body of `GET /search`: `{results: []}` or the three lists. -/
inductive SearchBody where
  | results
  | lists (projects : List FoundProject) (skills : List SqlVal)
      (education : List FoundEducation)
  deriving DecidableEq, Repr

/-- The three queries of `GET /search` for a search term. -/
def searchQueries (s : Store) (searchTerm : String) : SearchBody :=
  .lists
    (((s.projects.rows.filter fun r =>
        decide (r.profile_id = 1) &&
          (sqlLike searchTerm r.title || sqlLike searchTerm r.description)).take 5).map
      fun r => { title := r.title, description := r.description })
    ((distinct ((s.skills.rows.filter fun r =>
        decide (r.profile_id = 1) && sqlLike searchTerm r.skill).map fun r => r.skill)).take 5)
    (((s.education.rows.filter fun r =>
        decide (r.profile_id = 1) &&
          (sqlLike searchTerm r.school || sqlLike searchTerm r.degree ||
            sqlLike searchTerm r.field)).take 5).map
      fun r => { school := r.school, degree := r.degree, field := r.field })

/-- The handler of `GET /search`: `if (!q || q.length < 2)` the fixed body,
otherwise the three queries for the term `%q%`. -/
def getSearch (s : Store) (q : Option String) : SearchBody :=
  match q with
  | none => .results
  | some x =>
    if !truthy (.str x) || decide (jsLength x < 2) then .results
    else searchQueries s ("%" ++ x ++ "%")

/-! ## Auxiliary definitions of the statements -/

/-- The test of `GET /projects?skill=X` on a project id: some `project_skills`
row carries the id and exactly the text `X`. -/
def taggedWith (s : Store) (X : String) (projectId : Int) : Bool :=
  s.project_skills.rows.any fun k => decide (k.project_id = projectId) && decide (k.skill = .text X)

/-- The JSON text of the strings `A`, as elements of an array. -/
def stringElems (A : List String) : List Char := stringifyElems (A.map JsVal.str)

/-- The rows a loop of inserts stores for the elements of a field, where `f`
gives the row of one element (`none` when its insert throws): the rows of the
elements before the first one that throws, and whether none throws. -/
def storedRows {α β : Type} (f : α → Option β) : List α → List β × Bool
  | [] => ([], true)
  | x :: xs =>
    match f x with
    | none => ([], false)
    | some b => (b :: (storedRows f xs).1, (storedRows f xs).2)

/-- An education row without its id. -/
def EducationRow.settled (r : EducationRow) : EducationRow := { r with id := 0 }

/-- A skill row without its id. -/
def SkillRow.settled (r : SkillRow) : SkillRow := { r with id := 0 }

/-- A project row without its id and `created_at`. -/
def ProjectRow.settled (r : ProjectRow) : ProjectRow := { r with id := 0, created_at := .null }

/-- A work row without its id. -/
def WorkRow.settled (r : WorkRow) : WorkRow := { r with id := 0 }

/-- The body of `GET /profile` without the values a repeated `PUT /profile`
renews: `updated_at` of the profile, the ids of the education, project and
work rows, and `created_at` of the projects. -/
def ProfileView.settled (v : ProfileView) : ProfileView :=
  { profile := { v.profile with updated_at := .null }
    education := v.education.map EducationRow.settled
    skills := v.skills
    projects := v.projects.map ProjectRow.settled
    work := v.work.map WorkRow.settled
    links := v.links }

/-- The settled `education` of `GET /profile` for the profile `pid`. -/
def educationView (pid : Int) (t : Table EducationRow) : List EducationRow :=
  (t.rows.filter fun r => r.profile_id = pid).map EducationRow.settled

/-- The `skills` of `GET /profile` for the profile `pid`. -/
def skillsView (pid : Int) (t : Table SkillRow) : List SqlVal :=
  (orderByDesc (fun r : SkillRow => r.proficiency)
    (t.rows.filter fun r => r.profile_id = pid)).map fun r => r.skill

/-- The settled `projects` of `GET /profile` for the profile `pid`. -/
def projectsView (pid : Int) (t : Table ProjectRow) : List ProjectRow :=
  (orderByDesc (fun r : ProjectRow => r.created_at)
    (t.rows.filter fun r => r.profile_id = pid)).map ProjectRow.settled

/-- The settled `work` of `GET /profile` for the profile `pid`. -/
def workView (pid : Int) (t : Table WorkRow) : List WorkRow :=
  (orderByDesc (fun r : WorkRow => r.start_date)
    (t.rows.filter fun r => r.profile_id = pid)).map WorkRow.settled

/-- The answer of `GET /profile` with its body settled. -/
def settledReply : Reply ProfileView → Reply ProfileView
  | .ok v => .ok v.settled
  | .notFound => .notFound
  | .serverError => .serverError

/-- The projects in the body of an answer of `GET /profile`, none when the
answer has no body. -/
def projectsOf : Reply ProfileView → List ProjectRow
  | .ok v => v.projects
  | .notFound => []
  | .serverError => []

/-- The answer of `GET /profile` with the projects of its body replaced. -/
def withProjects (projects : List ProjectRow) : Reply ProfileView → Reply ProfileView
  | .ok v => .ok { v with projects := projects }
  | .notFound => .notFound
  | .serverError => .serverError

/-! ## Sample stores and bodies -/

/-- The clock of the sample requests: every statement runs in one second. -/
def stamp : Clock :=
  { profile := "2024-05-01 10:00:00", project := fun _ => "2024-05-01 10:00:00" }

/-- The clock of a later request during which the second changes after the
first `INSERT INTO projects`. -/
def laterClock : Clock :=
  { profile := "2024-05-01 10:00:05"
    project := fun i => if i = 0 then "2024-05-01 10:00:05" else "2024-05-01 10:00:06" }

/-- A profile row with id 1. -/
def profileOne : ProfileRow :=
  { id := 1, name := .text "Ada", email := .text "ada@example.org", bio := .null,
    created_at := .text "2024-01-01 00:00:00", updated_at := .text "2024-01-01 00:00:00" }

/-- A store with profile 1 and one education row. -/
def schooledStore : Store :=
  { emptyStore with
    profile := [profileOne]
    education :=
      { rows := [
          { id := 1, profile_id := 1, school := .text "MIT", degree := .text "BSc",
            field := .null, start_date := .text "2019", end_date := .text "2023" }]
        seq := 1 } }

/-- A store with profile 1 and two projects, one with a stored links text and
one with `links` unset. -/
def linkedStore : Store :=
  { emptyStore with
    profile := [profileOne]
    projects :=
      { rows := [
          { id := 1, profile_id := 1, title := .text "Compiler", description := .null,
            links := .text "[\"https://example.org/c\"]",
            created_at := .text "2024-02-02 00:00:00" },
          { id := 2, profile_id := 1, title := .text "Parser", description := .null,
            links := .null, created_at := .text "2024-01-01 00:00:00" }]
        seq := 2 } }

/-- A store whose only profile row has id 2 and owns one project. -/
def secondIdStore : Store :=
  { emptyStore with
    profile := [{ profileOne with id := 2 }]
    projects :=
      { rows := [
          { id := 1, profile_id := 2, title := .text "Compiler", description := .null,
            links := .text "[]", created_at := .text "2024-02-02 00:00:00" }]
        seq := 1 } }

/-- A body with one project that has one link. -/
def projectPayload : Payload :=
  { barePayload with
    projects := .arr [.obj [("title", .str "Compiler"), ("description", .str "A compiler"),
      ("links", .arr [.str "https://example.org/c"])]] }

/-- A body with one structured skill of proficiency 0. -/
def zeroSkillPayload : Payload :=
  { barePayload with
    skills := .arr [.obj [("skill", .str "Go"), ("proficiency", .num 0)]] }

/-- A body with one education entry. -/
def educationPayload : Payload :=
  { barePayload with
    education := .arr [.obj [("school", .str "MIT"), ("degree", .str "BSc")]] }

/-- A body with one project whose one link is the number 1.5. -/
def fractionPayload : Payload :=
  { barePayload with
    projects := .arr [.obj [("title", .str "Compiler"), ("links", .arr [.dec 15 1])]] }

/-- A body with one education entry, two projects and one work entry. -/
def portfolioPayload : Payload :=
  { barePayload with
    education := .arr [.obj [("school", .str "MIT"), ("degree", .str "BSc")]]
    projects := .arr [.obj [("title", .str "Compiler")], .obj [("title", .str "Parser")]]
    work := .arr [.obj [("company", .str "Acme"), ("position", .str "Engineer")]] }

/-- A store with profile 1 and two projects: the first has no skill tag and a
stored links text that is not JSON, the second is tagged `Python` and has the
links text of the empty array. -/
def brokenLinksStore : Store :=
  { emptyStore with
    profile := [profileOne]
    projects :=
      { rows := [
          { id := 1, profile_id := 1, title := .text "Compiler", description := .null,
            links := .text "[oops", created_at := .text "2024-02-02 00:00:00" },
          { id := 2, profile_id := 1, title := .text "Parser", description := .null,
            links := .text "[]", created_at := .text "2024-01-01 00:00:00" }]
        seq := 2 }
    project_skills :=
      { rows := [{ id := 1, project_id := 2, skill := .text "Python" }]
        seq := 1 } }

/-- The store `linkedStore` with skill tags on its two projects. -/
def taggedStore : Store :=
  { linkedStore with
    project_skills :=
      { rows := [
          { id := 1, project_id := 1, skill := .text "Python" },
          { id := 2, project_id := 2, skill := .text "React.js" },
          { id := 3, project_id := 1, skill := .text "Pandas" },
          { id := 4, project_id := 2, skill := .text "python" }]
        seq := 4 } }

/-- The body of `GET /projects` on `taggedStore`. -/
def taggedViews : List ProjectView :=
  [ { id := 1, profile_id := 1, title := .text "Compiler", description := .null,
      links := .arr [.str "https://example.org/c"],
      created_at := .text "2024-02-02 00:00:00" },
    { id := 2, profile_id := 1, title := .text "Parser", description := .null,
      links := .arr [], created_at := .text "2024-01-01 00:00:00" } ]

/-- A links row of profile 1 under the row id 5. -/
def oldContact : LinksRow :=
  { id := 5, profile_id := 1, github := .text "https://github.com/old",
    linkedin := .null, portfolio := .text "https://old.example.org", resume := .null }

/-- The store `schooledStore` with the links row `oldContact`. -/
def contactStore : Store :=
  { schooledStore with links := { rows := [oldContact], seq := 5 } }

/-- A body with `name`, `email` and a links object of two properties. -/
def linksPayload : Payload :=
  { barePayload with
    links := .obj [("github", .str "https://github.com/ada"),
      ("resume", .str "https://example.org/cv")] }

/-- The body `linksPayload` with an `education` array whose one element is
`null`. -/
def brokenPayload : Payload :=
  { linksPayload with education := .arr [.null] }

/-! ## The setup routine (`init-db.js`) -/

/-- The database file before the setup routine: `none` when it does not exist
yet.  `initializeSchema` runs `CREATE TABLE IF NOT EXISTS` for the seven
tables: a new file gets them empty, with no row id handed out, and an
existing one keeps its tables, rows and `AUTOINCREMENT` counters. -/
def initializeSchema (db : Option Store) : Store :=
  match db with
  | none => emptyStore
  | some s => s

/-- The seven `DELETE FROM` statements of `seedData`: every row goes, and the
`AUTOINCREMENT` counters stay (only a delete from `sqlite_sequence`, which
the routine does not run, resets them). -/
def wipe (s : Store) : Store :=
  { profile := []
    education := { s.education with rows := [] }
    skills := { s.skills with rows := [] }
    projects := { s.projects with rows := [] }
    project_skills := { s.project_skills with rows := [] }
    work := { s.work with rows := [] }
    links := { s.links with rows := [] } }

/-- A run of `INSERT` statements on one table, in order. -/
def insertEach {ρ : Type} (idOf : ρ → Int) (t : Table ρ) (rows : List (Int → ρ)) : Table ρ :=
  rows.foldl (fun t mk => t.insert idOf mk) t

/-- The parameters of the `INSERT INTO profile` of `seedData`. -/
def seedProfile (E : Engine) (now : Clock) : ProfileRow :=
  { id := 1
    name := E.textCell (.str "Devesh Sarda")
    email := E.textCell (.str "deveshsarda5@gmail.com")
    bio := E.textCell (.str "B.Tech Student at NIT Delhi specializing in Computer Science. Passionate about Machine Learning, Full-Stack Development, and building intelligent systems.")
    created_at := .text now.profile
    updated_at := .text now.profile }

/-- The rows of the two `INSERT INTO education` of `seedData`. -/
def seedEducation (E : Engine) : List (Int → EducationRow) :=
  [ fun id =>
      { id := id, profile_id := 1
        school := E.textCell (.str "National Institute of Technology Delhi")
        degree := E.textCell (.str "B.Tech")
        field := E.textCell (.str "Computer Science and Engineering")
        start_date := E.textCell (.str "2023")
        end_date := E.textCell (.str "May 2027") },
    fun id =>
      { id := id, profile_id := 1
        school := E.textCell (.str "Cambridge Court World School (CBSE)")
        degree := E.textCell (.str "Class XII")
        field := E.textCell (.str "Science Stream")
        start_date := E.textCell (.str "2022")
        end_date := E.textCell (.str "2023") } ]

/-- The array `skills` of `seedData`. -/
def seedSkills : List (String × Int) :=
  [ ("Machine Learning", 9),
    ("Python", 9),
    ("React.js", 8),
    ("Node.js", 8),
    ("Express", 8),
    ("MySQL", 8),
    ("PyTorch", 8),
    ("Scikit-learn", 8),
    ("XGBoost", 8),
    ("Pandas", 8),
    ("REST APIs", 8),
    ("Tailwind CSS", 7),
    ("Chart.js", 7),
    ("EfficientNet", 7),
    ("OpenCV", 7),
    ("GridSearchCV", 7),
    ("Gradio", 6) ]

/-- The row of the `INSERT INTO skills` that `skills.forEach` runs for one
entry. -/
def seedSkillRow (E : Engine) (entry : String × Int) : Int → SkillRow :=
  fun id =>
    { id := id, profile_id := 1, skill := E.textCell (.str entry.1),
      proficiency := E.intCell (.num entry.2) }

/-- The rows of the three `INSERT INTO projects` of `seedData`, each with the
parameter `JSON.stringify([url])` and its own reading of the clock. -/
def seedProjects (E : Engine) (now : Clock) : List (Int → ProjectRow) :=
  [ fun id =>
      { id := id, profile_id := 1
        title := E.textCell (.str "Healthcare Insurance Fraud Detection")
        description := E.textCell (.str "◦Built ML models to classify fraudulent insurance claims with 92% accuracy◦Processed 550K+ claim records via encoding, scaling, outlier removal, and cleaning◦Improved model performance by 20% using GridSearchCV across 120+ hyperparameter combinations and evaluated results using precision, recall, F1, and confusion matrix")
        links := E.textCell (JSON.stringify (.arr [.str "https://github.com/DeveshSarda5/MediCare_Fraud_Detection/tree/main/MediCare_Fraud_Detection"]))
        created_at := .text (now.project 0) },
    fun id =>
      { id := id, profile_id := 1
        title := E.textCell (.str "Personal Finance Dashboard")
        description := E.textCell (.str "◦Developed an intelligent finance tracker that predicts budgets with 86% accuracy◦Engineered responsive UI using React.js + Tailwind CSS and scalable REST APIs using Node.js & Express, handling 10,000+ requests/day during testing◦Designed Chart.js analytics reducing manual budgeting by 60% and optimized MySQL queries to boost load speed by 40%")
        links := E.textCell (JSON.stringify (.arr [.str "https://github.com/DeveshSarda5/Finance_Tracker"]))
        created_at := .text (now.project 1) },
    fun id =>
      { id := id, profile_id := 1
        title := E.textCell (.str "TrashScan: Smart Waste Classifier")
        description := E.textCell (.str "◦Created a waste classification system using a frozen EfficientNet-B3 backbone and a custom classifier◦Used augmentation, weighted sampling, Adam optimizer trained over a dataset with 15,000+ images◦Evaluated using Accuracy, F1, Precision, Recall, and confusion matrix, achieving 95% accuracy across 12 categories")
        links := E.textCell (JSON.stringify (.arr [.str "https://github.com/ishikakanyal/TrashScan-Smart-Waste-Classifier"]))
        created_at := .text (now.project 2) } ]

/-- The sixteen `INSERT INTO project_skills (project_id, skill) VALUES (n,
"...")` of `seedData`: the project id is the literal of the statement, and
the double-quoted word, which names no column, is read as a string. -/
def seedProjectSkills : List (Int → ProjectSkillRow) :=
  [ fun id => { id := id, project_id := 1, skill := .text "Python" },
    fun id => { id := id, project_id := 1, skill := .text "Scikit-learn" },
    fun id => { id := id, project_id := 1, skill := .text "XGBoost" },
    fun id => { id := id, project_id := 1, skill := .text "Pandas" },
    fun id => { id := id, project_id := 1, skill := .text "GridSearchCV" },
    fun id => { id := id, project_id := 2, skill := .text "React.js" },
    fun id => { id := id, project_id := 2, skill := .text "Node.js" },
    fun id => { id := id, project_id := 2, skill := .text "Express" },
    fun id => { id := id, project_id := 2, skill := .text "MySQL" },
    fun id => { id := id, project_id := 2, skill := .text "Chart.js" },
    fun id => { id := id, project_id := 2, skill := .text "Tailwind CSS" },
    fun id => { id := id, project_id := 3, skill := .text "Python" },
    fun id => { id := id, project_id := 3, skill := .text "PyTorch" },
    fun id => { id := id, project_id := 3, skill := .text "EfficientNet" },
    fun id => { id := id, project_id := 3, skill := .text "OpenCV" },
    fun id => { id := id, project_id := 3, skill := .text "Gradio" } ]

/-- The rows of the two `INSERT INTO work` of `seedData`. -/
def seedWork (E : Engine) : List (Int → WorkRow) :=
  [ fun id =>
      { id := id, profile_id := 1
        company := E.textCell (.str "NIT Delhi")
        position := E.textCell (.str "Training and Placement Cell")
        start_date := E.textCell (.str "")
        end_date := E.textCell (.str "")
        description := E.textCell (.str "Coordinated with industry professionals with a diverse team of 120 people◦Managed outreach initiatives improving employer engagement and recruitment participation by 25%") },
    fun id =>
      { id := id, profile_id := 1
        company := E.textCell (.str "NIT Delhi")
        position := E.textCell (.str "Google Developer Student Club")
        start_date := E.textCell (.str "")
        end_date := E.textCell (.str "")
        description := E.textCell (.str "Organized and executed 15+ technical events, hands-on workshops and community initiatives◦Supported peer learning and improved campus-wide technical engagement◦Contributed to growth of innovation-driven developer culture within the institution") } ]

/-- The row of the `INSERT INTO links` of `seedData`. -/
def seedLinks (E : Engine) : Int → LinksRow :=
  fun id =>
    { id := id, profile_id := 1
      github := E.textCell (.str "https://github.com/DeveshSarda5")
      linkedin := E.textCell (.str "https://www.linkedin.com/in/devesh-sarda-891412370/")
      portfolio := E.textCell (.str "")
      resume := E.textCell (.str "https://drive.google.com/file/d/17YmgWIt7bI8yuCZuiJ7z1rhQIVXO5DpP/view?usp=sharing") }

/-- The routine `seedData`: the deletes, then the inserts in the order of the
source, all inside `db.serialize`. -/
def seedData (E : Engine) (now : Clock) (s : Store) : Store :=
  { profile := (wipe s).profile ++ [seedProfile E now]
    education := insertEach (fun r => r.id) (wipe s).education (seedEducation E)
    skills := insertEach (fun r => r.id) (wipe s).skills (seedSkills.map (seedSkillRow E))
    projects := insertEach (fun r => r.id) (wipe s).projects (seedProjects E now)
    project_skills := insertEach (fun r => r.id) (wipe s).project_skills seedProjectSkills
    work := insertEach (fun r => r.id) (wipe s).work (seedWork E)
    links := insertEach (fun r => r.id) (wipe s).links [seedLinks E] }

/-- The setup routine: `initializeSchema`, whose last statement calls
`seedData`. -/
def setup (E : Engine) (now : Clock) (db : Option Store) : Store :=
  seedData E now (initializeSchema db)

/-! ## Order of cells and sorted queries -/

theorem charsLe_refl : ∀ a : List Char, charsLe a a = true
  | [] => rfl
  | a :: as => by simp [charsLe, charsLe_refl as]

theorem charsLe_total : ∀ a b : List Char, charsLe a b = true ∨ charsLe b a = true
  | [], _ => Or.inl rfl
  | _ :: _, [] => Or.inr rfl
  | a :: as, b :: bs => by
    rcases Nat.lt_trichotomy a.toNat b.toNat with h | h | h
    · left; simp [charsLe, h]
    · rcases charsLe_total as bs with h' | h'
      · left; simp [charsLe, h, h']
      · right; simp [charsLe, h, h']
    · right; simp [charsLe, h]

theorem charsLe_trans : ∀ a b c : List Char,
    charsLe a b = true → charsLe b c = true → charsLe a c = true
  | [], _, _, _, _ => by simp [charsLe]
  | _ :: _, [], _, h, _ => by simp [charsLe] at h
  | _ :: _, _ :: _, [], _, h => by simp [charsLe] at h
  | a :: as, b :: bs, c :: cs, h1, h2 => by
    simp only [charsLe, Bool.or_eq_true, Bool.and_eq_true, decide_eq_true_eq] at h1 h2 ⊢
    rcases h1 with h1 | ⟨e1, h1⟩
    · rcases h2 with h2 | ⟨e2, _⟩
      · left; omega
      · left; omega
    · rcases h2 with h2 | ⟨e2, h2⟩
      · left; omega
      · right; exact ⟨by omega, charsLe_trans as bs cs h1 h2⟩

theorem sqlLe_refl (a : SqlVal) : sqlLe a a = true := by
  cases a <;> simp [sqlLe, charsLe_refl]

theorem sqlLe_total (a b : SqlVal) : sqlLe a b = true ∨ sqlLe b a = true := by
  cases a <;> cases b <;> simp [sqlLe]
  · exact Int.le_total _ _
  · exact charsLe_total _ _

theorem sqlLe_trans (a b c : SqlVal) (h1 : sqlLe a b = true) (h2 : sqlLe b c = true) :
    sqlLe a c = true := by
  cases a <;> cases b <;> cases c <;> simp [sqlLe] at h1 h2 ⊢
  · omega
  · exact charsLe_trans _ _ _ h1 h2

theorem descBy_isTotal {α : Type} (key : α → SqlVal) : IsTotal α (descBy key) :=
  ⟨fun a b => (sqlLe_total (key b) (key a))⟩

theorem descBy_isTrans {α : Type} (key : α → SqlVal) : IsTrans α (descBy key) :=
  ⟨fun a b c h1 h2 => sqlLe_trans (key c) (key b) (key a) h2 h1⟩

theorem orderByDesc_sorted {α : Type} (key : α → SqlVal) (l : List α) :
    (orderByDesc key l).Pairwise (descBy key) :=
  haveI := descBy_isTotal key
  haveI := descBy_isTrans key
  List.sorted_insertionSort (descBy key) l

theorem orderByDesc_perm {α : Type} (key : α → SqlVal) (l : List α) :
    (orderByDesc key l).Perm l :=
  List.perm_insertionSort (descBy key) l

/-- Filtering commutes with inserting into a sorted list. -/
theorem filter_orderedInsert {α : Type} (key : α → SqlVal) (p : α → Bool) (a : α) :
    ∀ l : List α, l.Pairwise (descBy key) →
      (l.orderedInsert (descBy key) a).filter p =
        if p a then (l.filter p).orderedInsert (descBy key) a else l.filter p
  | [], _ => by by_cases h : p a <;> simp [h]
  | b :: l, hl => by
    have hl' := (List.pairwise_cons.1 hl).2
    have hb := (List.pairwise_cons.1 hl).1
    have ih := filter_orderedInsert key p a l hl'
    by_cases hab : descBy key a b
    · simp only [List.orderedInsert, hab, if_true]
      by_cases hpa : p a <;> by_cases hpb : p b <;> simp [List.filter_cons, hpa, hpb, hab]
      -- p a, ¬ p b: a goes in front of the filtered tail
      cases hf : l.filter p with
      | nil => simp
      | cons x t =>
        have hx : x ∈ l := List.mem_of_mem_filter (by rw [hf]; simp)
        have : descBy key a x := (descBy_isTrans key).trans _ _ _ hab (hb x hx)
        simp [this]
    · simp only [List.orderedInsert, hab, if_false]
      by_cases hpa : p a <;> by_cases hpb : p b <;>
        simp [List.filter_cons, hpa, hpb, hab, ih]

theorem filter_orderByDesc {α : Type} (key : α → SqlVal) (p : α → Bool) :
    ∀ l : List α, (orderByDesc key l).filter p = orderByDesc key (l.filter p)
  | [] => rfl
  | a :: l => by
    have ih := filter_orderByDesc key p l
    unfold orderByDesc at ih ⊢
    rw [List.insertionSort, filter_orderedInsert key p a (List.insertionSort (descBy key) l)
      (orderByDesc_sorted key l), ih]
    by_cases hpa : p a <;> simp [List.filter_cons, hpa]

/-! ## `SELECT DISTINCT` and the skill filter of `GET /projects` -/

theorem mem_distinct {α : Type} [DecidableEq α] (a : α) : ∀ l : List α, a ∈ distinct l ↔ a ∈ l
  | [] => by simp [distinct]
  | b :: l => by
    have ih := mem_distinct a l
    by_cases h : a = b
    · simp [distinct, h]
    · simp [distinct, h, List.mem_filter, ih]

theorem nodup_distinct {α : Type} [DecidableEq α] : ∀ l : List α, (distinct l).Nodup
  | [] => by simp [distinct]
  | b :: l => by
    simp only [distinct, List.nodup_cons, List.mem_filter]
    exact ⟨by simp, (nodup_distinct l).sublist (List.filter_sublist _)⟩

theorem distinct_of_nodup {α : Type} [DecidableEq α] : ∀ l : List α, l.Nodup → distinct l = l
  | [], _ => rfl
  | b :: l, h => by
    have hb := (List.nodup_cons.1 h).1
    have hl := (List.nodup_cons.1 h).2
    simp only [distinct, distinct_of_nodup l hl, List.cons.injEq, true_and]
    rw [List.filter_eq_self]
    intro a ha
    simp only [ne_eq, decide_not, Bool.not_eq_true', decide_eq_false_iff_not]
    rintro rfl
    exact hb ha

theorem nodup_of_nodup_map {α β : Type} (f : α → β) {l : List α} (h : (l.map f).Nodup) :
    l.Nodup := List.Nodup.of_map f h

theorem mem_tagged (s : Store) (X : String) (i : Int) :
    i ∈ distinct ((s.project_skills.rows.filter (fun k => k.skill = skillCell (some X))).map
      (fun k => k.project_id)) ↔ taggedWith s X i = true := by
  simp only [mem_distinct, List.mem_map, List.mem_filter, taggedWith, List.any_eq_true,
    Bool.and_eq_true, decide_eq_true_eq, skillCell]
  constructor
  · rintro ⟨k, ⟨hk, hs⟩, rfl⟩; exact ⟨k, hk, rfl, hs⟩
  · rintro ⟨k, hk, rfl, hs⟩; exact ⟨k, ⟨hk, hs⟩, rfl⟩

theorem projectsQuery_skill (s : Store) (X : String) (hX : X ≠ "")
    (hkey : (s.projects.rows.map (fun r => r.id)).Nodup) :
    projectsQuery s (some X) = (projectsQuery s none).filter (fun r => taggedWith s X r.id) := by
  have ht : truthy (queryParam (some X)) = true := by simp [queryParam, truthy, hX]
  have hn : truthy (queryParam none) = false := rfl
  simp only [projectsQuery, ht, hn, if_true, Bool.false_eq_true, if_false]
  rw [filter_orderByDesc, List.filter_filter]
  have hnd : (s.projects.rows.filter fun r => decide (r.profile_id = 1) &&
      decide (r.id ∈ distinct ((s.project_skills.rows.filter
        (fun k => k.skill = skillCell (some X))).map (fun k => k.project_id)))).Nodup :=
    (List.Nodup.of_map _ hkey).sublist (List.filter_sublist _)
  rw [distinct_of_nodup _ hnd]
  congr 1
  apply List.filter_congr
  intro r _
  have := mem_tagged s X r.id
  by_cases h1 : r.profile_id = 1 <;> by_cases h2 : taggedWith s X r.id = true <;>
    simp [h1, h2, this]

theorem withLinks_id {p : ProjectRow} {v : ProjectView} (h : withLinks p = some v) :
    v.id = p.id := by
  unfold withLinks at h
  split at h
  · cases h; rfl
  · cases h

theorem mapWithLinks_filter (q : Int → Bool) :
    ∀ (l : List ProjectRow) (vs : List ProjectView), mapWithLinks l = some vs →
      mapWithLinks (l.filter fun r => q r.id) = some (vs.filter fun v => q v.id)
  | [], vs, h => by cases h; rfl
  | p :: l, vs, h => by
    unfold mapWithLinks at h
    cases hv : withLinks p with
    | none => simp [hv] at h
    | some v =>
      cases hvs : mapWithLinks l with
      | none => simp [hv, hvs] at h
      | some vs' =>
        simp only [hv, hvs, Option.some.injEq] at h
        subst h
        have ih := mapWithLinks_filter q l vs' hvs
        have hid := withLinks_id hv
        by_cases hq : q p.id
        · simp [List.filter_cons, hq, hid, mapWithLinks, hv, ih]
        · simp [List.filter_cons, hq, hid, ih]

theorem mapWithLinks_ids :
    ∀ (l : List ProjectRow) (vs : List ProjectView), mapWithLinks l = some vs →
      vs.map (fun v => v.id) = l.map (fun r => r.id)
  | [], vs, h => by cases h; rfl
  | p :: l, vs, h => by
    unfold mapWithLinks at h
    cases hv : withLinks p with
    | none => simp [hv] at h
    | some v =>
      cases hvs : mapWithLinks l with
      | none => simp [hv, hvs] at h
      | some vs' =>
        simp only [hv, hvs, Option.some.injEq] at h
        subst h
        simp [mapWithLinks_ids l vs' hvs, withLinks_id hv]

/-- Counterexample to C6: on `brokenLinksStore`, whose untagged first project
holds the links text `[oops` and whose second project is tagged `Python`,
`GET /projects` without `skill` answers 500, because `JSON.parse` throws on
the first row, while `GET /projects?skill=Python` answers the list of the
second project: the filtered result is not a part of the unfiltered one. -/
theorem filtered_answers_where_unfiltered_fails :
    getProjects brokenLinksStore none = .serverError ∧
    ∃ part, getProjects brokenLinksStore (some "Python") = .ok part ∧
      part.map (fun p => p.id) = [2] :=
  ⟨rfl, _, rfl, rfl⟩

/-- C6, amended: for a non-empty skill string `X` and a store whose project
ids are distinct (`id` is the primary key), the rows `GET /projects?skill=X`
selects are exactly those rows of `GET /projects` whose id occurs in a
`project_skills` row with skill exactly `X`; and whenever the unfiltered
request answers a list, the filtered one answers exactly its elements with
such an id, each project at most once, a sub-list of the unfiltered answer. -/
theorem projects_by_skill_is_tagged_part (s : Store) (X : String) (hX : X ≠ "")
    (hkey : (s.projects.rows.map (fun r => r.id)).Nodup) :
    projectsQuery s (some X) = (projectsQuery s none).filter (fun r => taggedWith s X r.id) ∧
    ∀ all : List ProjectView, getProjects s none = .ok all →
      getProjects s (some X) = .ok (all.filter fun p => taggedWith s X p.id) ∧
      ((all.filter fun p => taggedWith s X p.id).map fun p => p.id).Nodup ∧
      (all.filter fun p => taggedWith s X p.id).Sublist all := by
  refine ⟨projectsQuery_skill s X hX hkey, fun all hall => ?_⟩
  unfold getProjects at hall
  cases hm : mapWithLinks (projectsQuery s none) with
  | none => simp [hm] at hall
  | some vs =>
    simp only [hm, Reply.ok.injEq] at hall
    subst hall
    refine ⟨?_, ?_, List.filter_sublist _⟩
    · unfold getProjects
      rw [projectsQuery_skill s X hX hkey, mapWithLinks_filter (taggedWith s X) _ _ hm]
    · have hids := mapWithLinks_ids _ _ hm
      have hnd : ((projectsQuery s none).map fun r => r.id).Nodup := by
        have hp : (projectsQuery s none).Perm
            (s.projects.rows.filter (fun r => r.profile_id = 1)) := by
          simp only [projectsQuery, queryParam, truthy, Bool.false_eq_true, if_false]
          exact orderByDesc_perm _ _
        exact ((hp.map _).nodup_iff).2 (hkey.sublist ((List.filter_sublist _).map _))
      rw [← hids] at hnd
      exact hnd.sublist ((List.filter_sublist _).map _)

/-- Witness of the amended C6 on `taggedStore` with the skill `Python`: the tag `python`
of the second project does not count. -/
theorem projects_by_skill_is_tagged_part_witness :
    projectsQuery taggedStore (some "Python") =
      (projectsQuery taggedStore none).filter (fun r => taggedWith taggedStore "Python" r.id) ∧
    getProjects taggedStore (some "Python") =
      .ok (taggedViews.filter fun p => taggedWith taggedStore "Python" p.id) ∧
    ((taggedViews.filter fun p => taggedWith taggedStore "Python" p.id).map fun p => p.id) = [1] :=
  ⟨(projects_by_skill_is_tagged_part taggedStore "Python" (by decide) (by decide)).1,
   ((projects_by_skill_is_tagged_part taggedStore "Python" (by decide) (by decide)).2
      taggedViews rfl).1, by decide⟩

/-! ## The store after `PUT /profile`, table by table -/

theorem upsertProfile_frame (E : Engine) (now : Clock) (body : Payload) (s : Store) :
    (upsertProfile E now body s).1.education = s.education ∧
    (upsertProfile E now body s).1.skills = s.skills ∧
    (upsertProfile E now body s).1.projects = s.projects ∧
    (upsertProfile E now body s).1.project_skills = s.project_skills ∧
    (upsertProfile E now body s).1.work = s.work ∧
    (upsertProfile E now body s).1.links = s.links := by
  unfold upsertProfile
  cases s.profile.head? <;> simp only <;> split <;> simp

theorem andThen_true (s : Store) (f : Store → Store × Bool) : andThen (s, true) f = f s := rfl

theorem andThen_false (s : Store) (f : Store → Store × Bool) :
    andThen (s, false) f = (s, false) := rfl

/-- The store `PUT /profile` leaves, table by table: a block runs when every
block before it succeeded, and a table whose block did not run is as it was. -/
theorem putProfile_fields (E : Engine) (now : Clock) (s : Store) (body : Payload) :
    (putProfile E now s body).2 =
      ((upsertProfile E now body s).2 &&
        (replaceEducation E (targetId s) body.education s.education).2 &&
        (replaceSkills E (targetId s) body.skills s.skills).2 &&
        (replaceProjects E now (targetId s) body.projects s.projects).2 &&
        (replaceWork E (targetId s) body.work s.work).2 &&
        (upsertLinks E (targetId s) body.links s.links).2) ∧
    (putProfile E now s body).1.profile = (upsertProfile E now body s).1.profile ∧
    (putProfile E now s body).1.education =
      (if (upsertProfile E now body s).2 then
        (replaceEducation E (targetId s) body.education s.education).1 else s.education) ∧
    (putProfile E now s body).1.skills =
      (if (upsertProfile E now body s).2 &&
          (replaceEducation E (targetId s) body.education s.education).2 then
        (replaceSkills E (targetId s) body.skills s.skills).1 else s.skills) ∧
    (putProfile E now s body).1.projects =
      (if (upsertProfile E now body s).2 &&
          (replaceEducation E (targetId s) body.education s.education).2 &&
          (replaceSkills E (targetId s) body.skills s.skills).2 then
        (replaceProjects E now (targetId s) body.projects s.projects).1 else s.projects) ∧
    (putProfile E now s body).1.work =
      (if (upsertProfile E now body s).2 &&
          (replaceEducation E (targetId s) body.education s.education).2 &&
          (replaceSkills E (targetId s) body.skills s.skills).2 &&
          (replaceProjects E now (targetId s) body.projects s.projects).2 then
        (replaceWork E (targetId s) body.work s.work).1 else s.work) ∧
    (putProfile E now s body).1.links =
      (if (upsertProfile E now body s).2 &&
          (replaceEducation E (targetId s) body.education s.education).2 &&
          (replaceSkills E (targetId s) body.skills s.skills).2 &&
          (replaceProjects E now (targetId s) body.projects s.projects).2 &&
          (replaceWork E (targetId s) body.work s.work).2 then
        (upsertLinks E (targetId s) body.links s.links).1 else s.links) ∧
    (putProfile E now s body).1.project_skills = s.project_skills := by
  obtain ⟨h1, h2, h3, h4, h5, h6⟩ := upsertProfile_frame E now body s
  unfold putProfile
  generalize upsertProfile E now body s = u at *
  obtain ⟨su, bu⟩ := u
  simp only at h1 h2 h3 h4 h5 h6
  rw [← h1, ← h2, ← h3, ← h4, ← h5, ← h6]
  generalize targetId s = pid
  clear h1 h2 h3 h4 h5 h6
  cases bu
  · simp [andThen_false]
  · simp only [andThen_true]
    generalize replaceEducation E pid body.education su.education = e
    obtain ⟨e1, e2⟩ := e
    cases e2
    · simp [andThen_false]
    · simp only [andThen_true]
      generalize replaceSkills E pid body.skills su.skills = k
      obtain ⟨k1, k2⟩ := k
      cases k2
      · simp [andThen_false]
      · simp only [andThen_true]
        generalize replaceProjects E now pid body.projects su.projects = p
        obtain ⟨p1, p2⟩ := p
        cases p2
        · simp [andThen_false]
        · simp only [andThen_true]
          generalize replaceWork E pid body.work su.work = w
          obtain ⟨w1, w2⟩ := w
          cases w2
          · simp [andThen_false]
          · simp [andThen_true]

/-! ## `PUT /profile` and `GET /profile`: evaluations and the non-array fields -/

theorem replaceRows_of_not_array {ρ : Type} (pidOf : ρ → Int)
    (ins : Table ρ → JsVal → Option (Table ρ)) (pid : Int) (field : JsVal) (t : Table ρ)
    (h : isArray field = false) :
    replaceRows pidOf ins pid field t = (t.deleteWhere pidOf pid, true) := by
  simp [replaceRows, h]

theorem replaceRows_nil {ρ : Type} (pidOf : ρ → Int)
    (ins : Table ρ → JsVal → Option (Table ρ)) (pid : Int) (t : Table ρ) :
    replaceRows pidOf ins pid (.arr []) t = (t.deleteWhere pidOf pid, true) := by
  simp [replaceRows, truthy, isArray, elements, insertAll]

theorem replaceProjects_of_not_array (E : Engine) (now : Clock) (pid : Int) (field : JsVal)
    (t : Table ProjectRow) (h : isArray field = false) :
    replaceProjects E now pid field t = (t.deleteWhere (fun r => r.profile_id) pid, true) := by
  simp [replaceProjects, h]

theorem replaceProjects_nil (E : Engine) (now : Clock) (pid : Int) (t : Table ProjectRow) :
    replaceProjects E now pid (.arr []) t = (t.deleteWhere (fun r => r.profile_id) pid, true) := by
  simp [replaceProjects, truthy, isArray, elements, insertAll]

/-- C1, evaluated at its failing input: `PUT /profile` on the empty store
with one project whose `links` is the array `["https://example.org/c"]`
succeeds, and `GET /profile` then returns that project with `links` equal to
the JSON text of the array, a string, not the array of the body. -/
theorem put_get_profile_links_are_text :
    (putProfile Engine.sample stamp emptyStore projectPayload).2 = true ∧
    getProp (.obj [("title", .str "Compiler"), ("description", .str "A compiler"),
      ("links", .arr [.str "https://example.org/c"])]) "links" =
        some (.arr [.str "https://example.org/c"]) ∧
    (∃ v, getProfile (putProfile Engine.sample stamp emptyStore projectPayload).1 = .ok v ∧
      v.projects.map (fun p => toJs p.links) = [.str "[\"https://example.org/c\"]"]) := by
  refine ⟨by decide, rfl, _, rfl, rfl⟩

/-- Counterexample to C2: on a store with one education row for profile 1, a
`PUT /profile` whose body has no `education` succeeds and leaves no
education row for profile 1. -/
theorem put_without_education_deletes_rows :
    ((putProfile Engine.sample stamp schooledStore barePayload).2 = true ∧
     isArray barePayload.education = false ∧
     (schooledStore.education.rows.filter fun r => r.profile_id = targetId schooledStore).length = 1 ∧
     ((putProfile Engine.sample stamp schooledStore barePayload).1.education.rows.filter
        fun r => r.profile_id = targetId schooledStore) = []) := by
  decide

/-- C2, amended: for each of `education`, `skills`, `projects` and `work`,
a field that is absent or not an array is handled exactly as the empty
array, so it never makes the request fail; and when the request succeeds the
table holds the rows it held for the other profiles and none for the target
profile. -/
theorem put_non_array_field_acts_as_empty (E : Engine) (now : Clock) (s : Store)
    (body : Payload) :
    (isArray body.education = false →
      putProfile E now s body = putProfile E now s { body with education := .arr [] } ∧
      ((putProfile E now s body).2 = true →
        (putProfile E now s body).1.education.rows =
          s.education.rows.filter fun r => r.profile_id ≠ targetId s)) ∧
    (isArray body.skills = false →
      putProfile E now s body = putProfile E now s { body with skills := .arr [] } ∧
      ((putProfile E now s body).2 = true →
        (putProfile E now s body).1.skills.rows =
          s.skills.rows.filter fun r => r.profile_id ≠ targetId s)) ∧
    (isArray body.projects = false →
      putProfile E now s body = putProfile E now s { body with projects := .arr [] } ∧
      ((putProfile E now s body).2 = true →
        (putProfile E now s body).1.projects.rows =
          s.projects.rows.filter fun r => r.profile_id ≠ targetId s)) ∧
    (isArray body.work = false →
      putProfile E now s body = putProfile E now s { body with work := .arr [] } ∧
      ((putProfile E now s body).2 = true →
        (putProfile E now s body).1.work.rows =
          s.work.rows.filter fun r => r.profile_id ≠ targetId s)) := by
  obtain ⟨hok, -, he, hk, hp, hw, -, -⟩ := putProfile_fields E now s body
  refine ⟨fun h => ⟨?_, fun hs => ?_⟩, fun h => ⟨?_, fun hs => ?_⟩,
    fun h => ⟨?_, fun hs => ?_⟩, fun h => ⟨?_, fun hs => ?_⟩⟩
  · have hr : ∀ t, replaceEducation E (targetId s) body.education t =
        replaceEducation E (targetId s) (.arr []) t := fun t => by
      simp only [replaceEducation, replaceRows_of_not_array _ _ _ _ _ h, replaceRows_nil]
    unfold putProfile
    simp only [hr]
    rfl
  · rw [hs] at hok
    simp only [Bool.true_eq, Bool.and_eq_true] at hok
    rw [he, hok.1.1.1.1.1]
    simp [replaceEducation, replaceRows_of_not_array _ _ _ _ _ h, Table.deleteWhere]
  · have hr : ∀ t, replaceSkills E (targetId s) body.skills t =
        replaceSkills E (targetId s) (.arr []) t := fun t => by
      simp only [replaceSkills, replaceRows_of_not_array _ _ _ _ _ h, replaceRows_nil]
    unfold putProfile
    simp only [hr]
    rfl
  · rw [hs] at hok
    simp only [Bool.true_eq, Bool.and_eq_true] at hok
    rw [hk, hok.1.1.1.1.1, hok.1.1.1.1.2]
    simp [replaceSkills, replaceRows_of_not_array _ _ _ _ _ h, Table.deleteWhere]
  · have hr : ∀ t, replaceProjects E now (targetId s) body.projects t =
        replaceProjects E now (targetId s) (.arr []) t := fun t => by
      simp only [replaceProjects_of_not_array _ _ _ _ _ h, replaceProjects_nil]
    unfold putProfile
    simp only [hr]
    rfl
  · rw [hs] at hok
    simp only [Bool.true_eq, Bool.and_eq_true] at hok
    rw [hp, hok.1.1.1.1.1, hok.1.1.1.1.2, hok.1.1.1.2]
    simp [replaceProjects_of_not_array _ _ _ _ _ h, Table.deleteWhere]
  · have hr : ∀ t, replaceWork E (targetId s) body.work t =
        replaceWork E (targetId s) (.arr []) t := fun t => by
      simp only [replaceWork, replaceRows_of_not_array _ _ _ _ _ h, replaceRows_nil]
    unfold putProfile
    simp only [hr]
    rfl
  · rw [hs] at hok
    simp only [Bool.true_eq, Bool.and_eq_true] at hok
    rw [hw, hok.1.1.1.1.1, hok.1.1.1.1.2, hok.1.1.1.2, hok.1.1.2]
    simp [replaceWork, replaceRows_of_not_array _ _ _ _ _ h, Table.deleteWhere]

/-- Witness of the amended C2 on `schooledStore` with a body that has none
of the four fields. -/
theorem put_non_array_field_acts_as_empty_witness :
    (putProfile Engine.sample stamp schooledStore barePayload).2 = true ∧
    (putProfile Engine.sample stamp schooledStore barePayload).1.education.rows =
      schooledStore.education.rows.filter (fun r => r.profile_id ≠ targetId schooledStore) ∧
    (putProfile Engine.sample stamp schooledStore barePayload).1.skills.rows =
      schooledStore.skills.rows.filter (fun r => r.profile_id ≠ targetId schooledStore) ∧
    (putProfile Engine.sample stamp schooledStore barePayload).1.projects.rows =
      schooledStore.projects.rows.filter (fun r => r.profile_id ≠ targetId schooledStore) ∧
    (putProfile Engine.sample stamp schooledStore barePayload).1.work.rows =
      schooledStore.work.rows.filter (fun r => r.profile_id ≠ targetId schooledStore) :=
  ⟨by decide,
    ((put_non_array_field_acts_as_empty Engine.sample stamp schooledStore barePayload).1
      rfl).2 (by decide),
    ((put_non_array_field_acts_as_empty Engine.sample stamp schooledStore barePayload).2.1
      rfl).2 (by decide),
    ((put_non_array_field_acts_as_empty Engine.sample stamp schooledStore barePayload).2.2.1
      rfl).2 (by decide),
    ((put_non_array_field_acts_as_empty Engine.sample stamp schooledStore barePayload).2.2.2
      rfl).2 (by decide)⟩

/-- C4, evaluated at its failing input: on a store whose two projects hold
the links text `["https://example.org/c"]` and `NULL`, `GET /profile`
returns the first with `links` equal to that text and the second with
`null`, while `GET /projects` returns the array and the empty array. -/
theorem get_profile_returns_stored_links_text :
    (∃ v, getProfile linkedStore = .ok v ∧
      v.projects.map (fun p => toJs p.links) = [.str "[\"https://example.org/c\"]", .null]) ∧
    (∃ all, getProjects linkedStore none = .ok all ∧
      all.map (fun p => p.links) = [.arr [.str "https://example.org/c"], .arr []]) :=
  ⟨⟨_, rfl, rfl⟩, ⟨_, rfl, rfl⟩⟩

/-- C9, evaluated at its failing input: `PUT /profile` on the empty store
with the skill `{skill: "Go", proficiency: 0}` succeeds and stores the row
with proficiency 5. -/
theorem put_zero_proficiency_stores_five :
    (putProfile Engine.sample stamp emptyStore zeroSkillPayload).2 = true ∧
    (putProfile Engine.sample stamp emptyStore zeroSkillPayload).1.skills.rows =
      [{ id := 1, profile_id := 1, skill := .text "Go", proficiency := .int 5 }] := by
  decide

/-- Counterexample to C10: on a store whose only profile row has id 2 and
owns one project, `GET /projects` answers the empty list while
`GET /profile` returns the project; and on `brokenLinksStore`, whose profile
row has id 1 and whose first project holds the links text `[oops`,
`GET /projects` answers 500 while `GET /profile` returns the two projects. -/
theorem get_projects_misses_profile_two :
    (getProjects secondIdStore none = .ok [] ∧
      ∃ v, getProfile secondIdStore = .ok v ∧ v.projects.map (fun p => p.id) = [1]) ∧
    (getProjects brokenLinksStore none = .serverError ∧
      ∃ v, getProfile brokenLinksStore = .ok v ∧ v.projects.map (fun p => p.id) = [1, 2]) :=
  ⟨⟨rfl, _, rfl, rfl⟩, ⟨rfl, _, rfl, rfl⟩⟩

/-- A structured skill entry with a non-empty name and a proficiency other
than 0 is stored with that name and that proficiency. -/
theorem skillRow_structured (E : Engine) (pid : Int) (n : String) (p : Int)
    (hn : n ≠ "") (hp : p ≠ 0) :
    skillRow E pid (.obj [("skill", .str n), ("proficiency", .num p)]) =
      some fun id => { id := id, profile_id := pid, skill := .text n, proficiency := .int p } := by
  simp [skillRow, getProp, lookupKey, jsOr, truthy, hn, hp, Engine.textCell, Engine.intCell,
    Engine.bind, textAffinity, Engine.intAffinity]

/-- A bare string is stored as the skill of that name with proficiency 5. -/
theorem skillRow_bare (E : Engine) (pid : Int) (n : String) :
    skillRow E pid (.str n) =
      some fun id => { id := id, profile_id := pid, skill := .text n, proficiency := .int 5 } := by
  by_cases hn : n = "" <;>
    simp [skillRow, getProp, jsOr, truthy, hn, Engine.textCell, Engine.intCell,
      Engine.bind, textAffinity, Engine.intAffinity]

/-! ## `JSON.parse` after `JSON.stringify` on arrays of strings -/

theorem hex4_two_digits : ∀ n, n < 32 →
    hex4 '0' '0' (hexDigit (n / 16)) (hexDigit (n % 16)) = some n := by
  decide

theorem char_not_surrogate (c : Char) : ¬ (55296 ≤ c.toNat ∧ c.toNat < 57344) := by
  have h := c.valid
  simp only [UInt32.isValidChar, Nat.isValidChar] at h
  have : c.toNat = c.val.toNat := rfl
  omega

theorem char_of_toNat {c : Char} {n : Nat} (h : c.toNat = n) : c = Char.ofNat n := by
  rw [← h, Char.ofNat_toNat]

theorem parseStr_plain (c : Char) (rest : List Char) (h1 : ¬c = '"')
    (h2 : ¬c = '\\') (h3 : ¬c.toNat < 32) :
    parseStr (c :: rest) = consUnit c.toNat (parseStr rest) := by
  rw [parseStr.eq_def]
  simp [h1, h2, h3]

theorem parseStr_escape (e ch : Char) (rest : List Char) (he : ¬ e = 'u')
    (hu : unescape e = some ch) :
    parseStr ('\\' :: e :: rest) = consUnit ch.toNat (parseStr rest) := by
  rw [parseStr.eq_def]
  simp [he, hu]

theorem parseStr_hex (a b c d : Char) (n : Nat) (rest : List Char)
    (h : hex4 a b c d = some n) :
    parseStr ('\\' :: 'u' :: a :: b :: c :: d :: rest) = consUnit n (parseStr rest) := by
  rw [parseStr.eq_def]
  simp [h]

/-- Reading back the JSON text of one character yields its code unit. -/
theorem parseStr_quoteChar (c : Char) (rest : List Char) :
    parseStr (quoteChar c ++ rest) = consUnit c.toNat (parseStr rest) := by
  unfold quoteChar
  split
  · next h => subst h; exact parseStr_escape '"' '"' rest (by decide) (by decide)
  split
  · next h => subst h; exact parseStr_escape '\\' '\\' rest (by decide) (by decide)
  split
  · next h => exact parseStr_escape 'b' c rest (by decide) (by rw [char_of_toNat h]; decide)
  split
  · next h => exact parseStr_escape 't' c rest (by decide) (by rw [char_of_toNat h]; decide)
  split
  · next h => exact parseStr_escape 'n' c rest (by decide) (by rw [char_of_toNat h]; decide)
  split
  · next h => exact parseStr_escape 'f' c rest (by decide) (by rw [char_of_toNat h]; decide)
  split
  · next h => exact parseStr_escape 'r' c rest (by decide) (by rw [char_of_toNat h]; decide)
  split
  · next h => exact parseStr_hex _ _ _ _ _ rest (hex4_two_digits _ h)
  · next h1 h2 _ _ _ _ _ h3 => exact parseStr_plain c rest h1 h2 h3

theorem parseStr_quoteBody (rest : List Char) : ∀ s : List Char,
    parseStr (quoteBody s ++ '"' :: rest) = some (s.map Char.toNat, rest)
  | [] => by rw [quoteBody, List.nil_append, parseStr.eq_def]; simp
  | c :: cs => by
    simp only [quoteBody, List.append_assoc, parseStr_quoteChar, parseStr_quoteBody rest cs]
    rfl

theorem combineUnits_toNat : ∀ s : List Char, combineUnits (s.map Char.toNat) = s
  | [] => rfl
  | [c] => by
    simp [combineUnits, char_not_surrogate c]
  | c :: d :: r => by
    have ih := combineUnits_toNat (d :: r)
    have hc := char_not_surrogate c
    simp only [List.map_cons] at ih ⊢
    have h1 : ¬ (55296 ≤ c.toNat ∧ c.toNat < 56320 ∧ 56320 ≤ d.toNat ∧ d.toNat < 57344) := by
      omega
    simp only [combineUnits, h1, hc, if_false, ih, Char.ofNat_toNat]

theorem parseString_quote (s : String) (rest : List Char) :
    parseString (quoteBody s.data ++ '"' :: rest) = some (s, rest) := by
  simp [parseString, parseStr_quoteBody, combineUnits_toNat]

theorem quote_append (s : String) (rest : List Char) :
    quote s ++ rest = '"' :: (quoteBody s.data ++ '"' :: rest) := by
  simp [quote]

theorem parseValue_quote (fuel : Nat) (s : String) (rest : List Char) :
    parseValue (fuel + 1) (quote s ++ rest) = some (.str s, rest) := by
  rw [quote_append]
  simp [parseValue, skipWs, isWs, parseString_quote]

theorem stringElems_one (x : String) : stringElems [x] = quote x := by
  simp [stringElems, stringifyElems, stringifyChars]

theorem stringElems_cons (x y : String) (r : List String) :
    stringElems (x :: y :: r) = quote x ++ ',' :: stringElems (y :: r) := by
  simp [stringElems, stringifyElems, stringifyChars]

theorem parseElems_comma (fuel : Nat) (v : JsVal) (vs : List JsVal) (cs rest rest2 : List Char)
    (h : parseValue fuel cs = some (v, ',' :: rest))
    (h2 : parseElems fuel rest = some (vs, rest2)) :
    parseElems (fuel + 1) cs = some (v :: vs, rest2) := by
  rw [parseElems, h]
  simp [skipWs, isWs, h2]

theorem parseElems_close (fuel : Nat) (v : JsVal) (cs rest : List Char)
    (h : parseValue fuel cs = some (v, ']' :: rest)) :
    parseElems (fuel + 1) cs = some ([v], rest) := by
  rw [parseElems, h]
  simp [skipWs, isWs]

theorem parseElems_strings : ∀ (xs : List String) (x : String) (fuel : Nat) (rest : List Char),
    xs.length + 2 ≤ fuel →
      parseElems fuel (stringElems (x :: xs) ++ ']' :: rest) =
        some ((x :: xs).map JsVal.str, rest)
  | [], x, fuel, rest, h => by
    obtain ⟨f, rfl⟩ : ∃ f, fuel = f + 2 := ⟨fuel - 2, by simp at h; omega⟩
    rw [stringElems_one, parseElems_close _ _ _ _ (parseValue_quote f x _)]
    rfl
  | y :: ys, x, fuel, rest, h => by
    obtain ⟨f, rfl⟩ : ∃ f, fuel = f + 2 := ⟨fuel - 2, by simp at h; omega⟩
    have ih := parseElems_strings ys y (f + 1) rest (by simp at h ⊢; omega)
    rw [stringElems_cons, List.append_assoc, List.cons_append]
    exact parseElems_comma _ _ _ _ _ _ (parseValue_quote f x _) ih

theorem stringElems_head (x : String) (xs : List String) (rest : List Char) :
    ∃ tl, stringElems (x :: xs) ++ rest = '"' :: tl := by
  cases xs with
  | nil => exact ⟨_, by rw [stringElems_one, quote_append]⟩
  | cons y ys => exact ⟨_, by rw [stringElems_cons, List.append_assoc, quote_append]⟩

theorem length_le_stringElems : ∀ A : List String, A.length ≤ (stringElems A).length
  | [] => by simp
  | [x] => by rw [stringElems_one]; simp [quote]
  | x :: y :: r => by
    have ih := length_le_stringElems (y :: r)
    rw [stringElems_cons]
    simp only [List.length_cons, List.length_append] at ih ⊢
    omega

theorem parseValue_string_array (A : List String) (fuel : Nat) (h : A.length + 3 ≤ fuel) :
    parseValue fuel (stringifyChars (.arr (A.map JsVal.str))) = some (.arr (A.map JsVal.str), []) := by
  obtain ⟨f, rfl⟩ : ∃ f, fuel = f + 1 := ⟨fuel - 1, by omega⟩
  cases A with
  | nil => simp [stringifyChars, stringifyElems, parseValue, skipWs, isWs]
  | cons x xs =>
    have hE := parseElems_strings xs x f [] (by simp at h; omega)
    obtain ⟨tl, htl⟩ := stringElems_head x xs [']']
    have hs : stringifyChars (.arr ((x :: xs).map JsVal.str)) = '[' :: '"' :: tl := by
      rw [← htl]; rfl
    rw [hs]
    rw [htl] at hE
    simp [parseValue, skipWs, isWs, hE]

/-- `JSON.parse` reads back what `JSON.stringify` writes for an array of
strings. -/
theorem parse_stringify_strings (A : List String) :
    JSON.parse (String.mk (stringifyChars (.arr (A.map JsVal.str)))) =
      some (.arr (A.map JsVal.str)) := by
  have hlen : A.length + 3 ≤ 2 * (stringifyChars (.arr (A.map JsVal.str))).length + 2 := by
    have := length_le_stringElems A
    simp only [stringifyChars, List.length_cons, List.length_append, stringElems] at this ⊢
    omega
  simp [JSON.parse, parseValue_string_array A _ hlen, skipWs]

/-- The cell stored for `JSON.stringify(links || [])` is read back by
`p.links ? JSON.parse(p.links) : []` as the array of the strings `A`, when
`links` is that array, or is `undefined` and `A` is empty. -/
theorem readLinks_stringify (E : Engine) (links : JsVal) (A : List String)
    (h : links = .arr (A.map JsVal.str) ∨ (links = .undefined ∧ A = [])) :
    readLinks (E.textCell (JSON.stringify (jsOr links (.arr [])))) =
      some (.arr (A.map JsVal.str)) := by
  have key : ∀ B : List String,
      readLinks (E.textCell (JSON.stringify (.arr (B.map JsVal.str)))) =
        some (.arr (B.map JsVal.str)) := by
    intro B
    have hne : String.mk (stringifyChars (.arr (B.map JsVal.str))) ≠ "" := by
      intro hc
      have := congrArg String.data hc
      simp [stringifyChars] at this
    simp [JSON.stringify, Engine.textCell, Engine.bind, textAffinity, readLinks, toJs, truthy,
      hne, jsToString, parse_stringify_strings]
  rcases h with rfl | ⟨rfl, rfl⟩
  · simpa [jsOr, truthy] using key A
  · simpa [jsOr, truthy] using key []

/-- C3: when the `links` of a project of the body is an array of strings `A`,
or is not supplied (then `A = []`), the cell stored for
`JSON.stringify(proj.links || [])` is read back by
`p.links ? JSON.parse(p.links) : []` as the array of the strings of `A`,
element for element; so the row `PUT /profile` inserts for the project is
returned by the callback of `GET /projects` with `links` equal to that array. -/
theorem links_round_trip (E : Engine) (now : String) (pid : Int) (proj links : JsVal)
    (A : List String) (hl : getProp proj "links" = some links)
    (h : links = .arr (A.map JsVal.str) ∨ (links = .undefined ∧ A = [])) :
    readLinks (E.textCell (JSON.stringify (jsOr links (.arr [])))) =
      some (.arr (A.map JsVal.str)) ∧
    ∀ mk, projectRow E now pid proj = some mk → ∀ id : Int,
      (withLinks (mk id)).map (fun v => v.links) = some (.arr (A.map JsVal.str)) := by
  have hr := readLinks_stringify E links A h
  refine ⟨hr, fun mk hmk id => ?_⟩
  unfold projectRow at hmk
  rw [hl] at hmk
  split at hmk
  · next title description links' heq1 heq2 heq3 =>
    cases heq3
    split at hmk
    · cases hmk
    · cases hmk
      simp [withLinks, hr]
  · cases hmk

/-- Witness of C3 for a project with two links, one with a quote and a line
break: the expression level, and the row inserted under id 7. -/
theorem links_round_trip_witness :
    readLinks (Engine.sample.textCell (JSON.stringify (jsOr
      (.arr (["https://a.example", "q\"\n"].map JsVal.str)) (.arr [])))) =
      some (.arr (["https://a.example", "q\"\n"].map JsVal.str)) ∧
    (withLinks
      { id := 7, profile_id := 1, title := .text "Compiler", description := .null,
        links := .text "[\"https://a.example\",\"q\\\"\\n\"]",
        created_at := .text (stamp.project 0) }).map (fun v => v.links) =
      some (.arr (["https://a.example", "q\"\n"].map JsVal.str)) :=
  ⟨(links_round_trip Engine.sample (stamp.project 0) 1
      (.obj [("title", .str "Compiler"),
        ("links", .arr (["https://a.example", "q\"\n"].map JsVal.str))])
      _ _ rfl (Or.inl rfl)).1,
   (links_round_trip Engine.sample (stamp.project 0) 1
      (.obj [("title", .str "Compiler"),
        ("links", .arr (["https://a.example", "q\"\n"].map JsVal.str))])
      _ _ rfl (Or.inl rfl)).2
      (fun id =>
        { id := id, profile_id := 1, title := .text "Compiler", description := .null,
          links := .text "[\"https://a.example\",\"q\\\"\\n\"]",
          created_at := .text (stamp.project 0) })
      rfl 7⟩

/-! ## A block of `PUT /profile` fixes the rows of the target profile -/

theorem insertAll_view {ρ α β : Type} (idOf pidOf : ρ → Int) (row : α → Option (Int → ρ))
    (pid : Int) (er : ρ → β)
    (hpid : ∀ x mk, row x = some mk → ∀ i, pidOf (mk i) = pid)
    (her : ∀ x mk, row x = some mk → ∀ i, er (mk i) = er (mk 0)) :
    ∀ (xs : List α) (t : Table ρ),
      ((insertAll (insertRow idOf row) t xs).1.rows.filter (fun r => pidOf r = pid)).map er =
          (t.rows.filter (fun r => pidOf r = pid)).map er ++
            (storedRows (fun x => (row x).map fun mk => er (mk 0)) xs).1 ∧
      (insertAll (insertRow idOf row) t xs).2 =
          (storedRows (fun x => (row x).map fun mk => er (mk 0)) xs).2
  | [], t => by simp [insertAll, storedRows]
  | x :: xs, t => by
    cases hx : row x with
    | none => simp [insertAll, insertRow, storedRows, hx]
    | some mk =>
      have ih := insertAll_view idOf pidOf row pid er hpid her xs (t.insert idOf mk)
      simp only [insertAll, insertRow, storedRows, hx, Option.map_some']
      refine ⟨?_, ih.2⟩
      rw [ih.1]
      simp [Table.insert, List.filter_append, hpid x mk hx, her x mk hx (nextId _ _)]

theorem insertAll_rows {ρ α : Type} (idOf : ρ → Int) (row : α → Option (Int → ρ)) :
    ∀ (xs : List α) (t : Table ρ), ∀ r ∈ (insertAll (insertRow idOf row) t xs).1.rows,
      r ∈ t.rows ∨ ∃ x mk i, row x = some mk ∧ r = mk i
  | [], t, r, hr => Or.inl (by simpa [insertAll] using hr)
  | x :: xs, t, r, hr => by
    cases hx : row x with
    | none => exact Or.inl (by simpa [insertAll, insertRow, hx] using hr)
    | some mk =>
      simp only [insertAll, insertRow, hx] at hr
      rcases insertAll_rows idOf row xs (t.insert idOf mk) r hr with h | h
      · simp only [Table.insert, List.mem_append, List.mem_singleton] at h
        rcases h with h | h
        · exact Or.inl h
        · exact Or.inr ⟨x, mk, _, hx, h⟩
      · exact Or.inr h

theorem replaceRows_eq {ρ : Type} (pidOf : ρ → Int) (ins : Table ρ → JsVal → Option (Table ρ))
    (pid : Int) (field : JsVal) (t : Table ρ) :
    replaceRows pidOf ins pid field t = insertAll ins (t.deleteWhere pidOf pid) (elements field) := by
  cases field <;> simp [replaceRows, truthy, isArray, elements, insertAll]

/-- The rows of the target profile after a block of `PUT /profile`, without
what `er` forgets, and the success of the block, are fixed by the field alone. -/
theorem replaceRows_view {ρ β : Type} (idOf pidOf : ρ → Int) (row : JsVal → Option (Int → ρ))
    (pid : Int) (er : ρ → β)
    (hpid : ∀ x mk, row x = some mk → ∀ i, pidOf (mk i) = pid)
    (her : ∀ x mk, row x = some mk → ∀ i, er (mk i) = er (mk 0))
    (field : JsVal) (t : Table ρ) :
    ((replaceRows pidOf (insertRow idOf row) pid field t).1.rows.filter
        (fun r => pidOf r = pid)).map er =
      (storedRows (fun x => (row x).map fun mk => er (mk 0)) (elements field)).1 ∧
    (replaceRows pidOf (insertRow idOf row) pid field t).2 =
      (storedRows (fun x => (row x).map fun mk => er (mk 0)) (elements field)).2 := by
  rw [replaceRows_eq]
  have h := insertAll_view idOf pidOf row pid er hpid her (elements field) (t.deleteWhere pidOf pid)
  refine ⟨?_, h.2⟩
  rw [h.1]
  have : (t.deleteWhere pidOf pid).rows.filter (fun r => pidOf r = pid) = [] := by
    simp [Table.deleteWhere, List.filter_filter]
  rw [this]
  rfl

theorem replaceRows_key {ρ : Type} (idOf pidOf : ρ → Int) (row : JsVal → Option (Int → ρ))
    (pid : Int) (key : ρ → SqlVal) (c : SqlVal)
    (hkey : ∀ x mk, row x = some mk → ∀ i, key (mk i) = c)
    (field : JsVal) (t : Table ρ) :
    ∀ r ∈ (replaceRows pidOf (insertRow idOf row) pid field t).1.rows.filter
        (fun r => pidOf r = pid), key r = c := by
  intro r hr
  rw [replaceRows_eq, List.mem_filter] at hr
  rcases insertAll_rows idOf row _ _ r hr.1 with h | ⟨x, mk, i, hx, rfl⟩
  · simp only [Table.deleteWhere, List.mem_filter] at h
    simp_all
  · exact hkey x mk hx i

theorem orderByDesc_of_const {ρ : Type} (key : ρ → SqlVal) (c : SqlVal) (l : List ρ)
    (h : ∀ r ∈ l, key r = c) : orderByDesc key l = l := by
  apply List.Sorted.insertionSort_eq
  apply List.pairwise_of_forall_mem_list
  intro a ha b hb
  simp [descBy, h a ha, h b hb, sqlLe_refl]

theorem map_orderByDesc {ρ : Type} (key : ρ → SqlVal) (er : ρ → ρ)
    (h : ∀ r, key (er r) = key r) (l : List ρ) :
    (orderByDesc key l).map er = orderByDesc key (l.map er) := by
  apply List.map_insertionSort
  intro a _ b _
  simp [descBy, h]

/-! ## The four child tables -/

theorem educationRow_spec (E : Engine) (pid : Int) (x : JsVal) (mk : Int → EducationRow)
    (h : educationRow E pid x = some mk) (i : Int) :
    (mk i).profile_id = pid ∧ (mk i).settled = (mk 0).settled := by
  unfold educationRow at h
  split at h
  · split at h
    · cases h
    · cases h; exact ⟨rfl, rfl⟩
  · cases h

theorem skillRow_spec (E : Engine) (pid : Int) (x : JsVal) (mk : Int → SkillRow)
    (h : skillRow E pid x = some mk) (i : Int) :
    (mk i).profile_id = pid ∧ (mk i).settled = (mk 0).settled := by
  unfold skillRow at h
  split at h
  · split at h
    · cases h
    · cases h; exact ⟨rfl, rfl⟩
  · cases h

theorem projectRow_spec (E : Engine) (now : String) (pid : Int) (x : JsVal)
    (mk : Int → ProjectRow) (h : projectRow E now pid x = some mk) (i : Int) :
    (mk i).profile_id = pid ∧ (mk i).created_at = .text now ∧
      (mk i).settled = (mk 0).settled := by
  unfold projectRow at h
  split at h
  · split at h
    · cases h
    · cases h; exact ⟨rfl, rfl, rfl⟩
  · cases h

theorem projectRow_now (E : Engine) (now now' : String) (pid : Int) (x : JsVal) :
    (projectRow E now pid x).map (fun mk => (mk 0).settled) =
      (projectRow E now' pid x).map (fun mk => (mk 0).settled) := by
  unfold projectRow
  split
  · split <;> rfl
  · rfl

theorem workRow_spec (E : Engine) (pid : Int) (x : JsVal) (mk : Int → WorkRow)
    (h : workRow E pid x = some mk) (i : Int) :
    (mk i).profile_id = pid ∧ (mk i).settled = (mk 0).settled := by
  unfold workRow at h
  split at h
  · split at h
    · cases h
    · cases h; exact ⟨rfl, rfl⟩
  · cases h

/-- After its block ran, the settled education of the target profile and the
success of the block are fixed by the field. -/
theorem education_after (E : Engine) (pid : Int) (field : JsVal) (t : Table EducationRow) :
    educationView pid (replaceEducation E pid field t).1 =
      (storedRows (fun x => (educationRow E pid x).map fun mk => (mk 0).settled)
        (elements field)).1 ∧
    (replaceEducation E pid field t).2 =
      (storedRows (fun x => (educationRow E pid x).map fun mk => (mk 0).settled)
        (elements field)).2 :=
  replaceRows_view (fun r : EducationRow => r.id) (fun r => r.profile_id) (educationRow E pid)
    pid EducationRow.settled
    (fun x mk h i => (educationRow_spec E pid x mk h i).1)
    (fun x mk h i => (educationRow_spec E pid x mk h i).2) field t

theorem skills_after (E : Engine) (pid : Int) (field : JsVal) (t : Table SkillRow) :
    skillsView pid (replaceSkills E pid field t).1 =
      (orderByDesc (fun r : SkillRow => r.proficiency)
        (storedRows (fun x => (skillRow E pid x).map fun mk => (mk 0).settled)
          (elements field)).1).map (fun r => r.skill) ∧
    (replaceSkills E pid field t).2 =
      (storedRows (fun x => (skillRow E pid x).map fun mk => (mk 0).settled)
        (elements field)).2 := by
  have h := replaceRows_view (fun r : SkillRow => r.id) (fun r => r.profile_id)
    (skillRow E pid) pid SkillRow.settled
    (fun x mk h i => (skillRow_spec E pid x mk h i).1)
    (fun x mk h i => (skillRow_spec E pid x mk h i).2) field t
  refine ⟨?_, h.2⟩
  rw [← h.1, ← map_orderByDesc (fun r : SkillRow => r.proficiency) SkillRow.settled
    (fun _ => rfl), List.map_map]
  rfl

theorem replaceProjects_eq (E : Engine) (now : Clock) (pid : Int) (field : JsVal)
    (t : Table ProjectRow) :
    replaceProjects E now pid field t =
      insertAll
        (insertRow (fun r => r.id)
          (fun proj : Nat × JsVal => projectRow E (now.project proj.1) pid proj.2))
        (t.deleteWhere (fun r => r.profile_id) pid) (elements field).enum := by
  cases field <;> simp [replaceProjects, truthy, isArray, elements, insertAll]

theorem storedRows_enumFrom {α β : Type} (f : α → Option β) (g : Nat × α → Option β)
    (h : ∀ i x, g (i, x) = f x) :
    ∀ (xs : List α) (n : Nat), storedRows g (xs.enumFrom n) = storedRows f xs
  | [], _ => rfl
  | x :: xs, n => by
    simp only [List.enumFrom, storedRows, h, storedRows_enumFrom f g h xs (n + 1)]

/-- After the projects block ran, the settled project rows of the target
profile, in storage order, and the success of the block are fixed by the
field, whatever the clock reads. -/
theorem replaceProjects_view (E : Engine) (now : Clock) (pid : Int) (field : JsVal)
    (t : Table ProjectRow) :
    ((replaceProjects E now pid field t).1.rows.filter (fun r => r.profile_id = pid)).map
        ProjectRow.settled =
      (storedRows (fun x => (projectRow E "" pid x).map fun mk => (mk 0).settled)
        (elements field)).1 ∧
    (replaceProjects E now pid field t).2 =
      (storedRows (fun x => (projectRow E "" pid x).map fun mk => (mk 0).settled)
        (elements field)).2 := by
  rw [replaceProjects_eq]
  have h := insertAll_view (fun r : ProjectRow => r.id) (fun r => r.profile_id)
    (fun proj : Nat × JsVal => projectRow E (now.project proj.1) pid proj.2) pid
    ProjectRow.settled
    (fun x mk h i => (projectRow_spec E _ pid x.2 mk h i).1)
    (fun x mk h i => (projectRow_spec E _ pid x.2 mk h i).2.2)
    (elements field).enum (t.deleteWhere (fun r => r.profile_id) pid)
  have hs := storedRows_enumFrom
    (fun x => (projectRow E "" pid x).map fun mk => (mk 0).settled)
    (fun proj : Nat × JsVal =>
      (projectRow E (now.project proj.1) pid proj.2).map fun mk => (mk 0).settled)
    (fun i x => projectRow_now E (now.project i) "" pid x) (elements field) 0
  rw [List.enum, hs] at h
  refine ⟨?_, h.2⟩
  rw [List.enum, h.1]
  have : (t.deleteWhere (fun r : ProjectRow => r.profile_id) pid).rows.filter
      (fun r => r.profile_id = pid) = [] := by
    simp [Table.deleteWhere, List.filter_filter]
  rw [this]
  rfl

/-- The `created_at` of the project rows of the target profile after the
projects block ran is a reading of the clock. -/
theorem replaceProjects_key (E : Engine) (now : Clock) (pid : Int) (field : JsVal)
    (t : Table ProjectRow) :
    ∀ r ∈ (replaceProjects E now pid field t).1.rows.filter (fun r => r.profile_id = pid),
      ∃ i, r.created_at = .text (now.project i) := by
  intro r hr
  rw [replaceProjects_eq, List.mem_filter] at hr
  rcases insertAll_rows (fun r : ProjectRow => r.id)
      (fun proj : Nat × JsVal => projectRow E (now.project proj.1) pid proj.2) _ _ r hr.1
    with h | ⟨x, mk, i, hx, rfl⟩
  · simp only [Table.deleteWhere, List.mem_filter] at h
    simp_all
  · exact ⟨x.1, (projectRow_spec E _ pid x.2 mk hx i).2.1⟩

/-- After its block ran, the settled projects of `GET /profile` are the rows
of the elements of the field in some order, which is the order of the field
when every insert of the request read the same second; the success of the
block is fixed by the field. -/
theorem projects_after (E : Engine) (now : Clock) (pid : Int) (field : JsVal)
    (t : Table ProjectRow) :
    (projectsView pid (replaceProjects E now pid field t).1).Perm
      (storedRows (fun x => (projectRow E "" pid x).map fun mk => (mk 0).settled)
        (elements field)).1 ∧
    ((∀ i j, now.project i = now.project j) →
      projectsView pid (replaceProjects E now pid field t).1 =
        (storedRows (fun x => (projectRow E "" pid x).map fun mk => (mk 0).settled)
          (elements field)).1) ∧
    (replaceProjects E now pid field t).2 =
      (storedRows (fun x => (projectRow E "" pid x).map fun mk => (mk 0).settled)
        (elements field)).2 := by
  have h := replaceProjects_view E now pid field t
  refine ⟨?_, fun hc => ?_, h.2⟩
  · rw [← h.1]
    exact (orderByDesc_perm _ _).map _
  · rw [← h.1]
    unfold projectsView
    rw [orderByDesc_of_const _ (.text (now.project 0)) _ (fun r hr => by
      obtain ⟨i, hi⟩ := replaceProjects_key E now pid field t r hr
      rw [hi, hc i 0])]

theorem work_after (E : Engine) (pid : Int) (field : JsVal) (t : Table WorkRow) :
    workView pid (replaceWork E pid field t).1 =
      orderByDesc (fun r : WorkRow => r.start_date)
        (storedRows (fun x => (workRow E pid x).map fun mk => (mk 0).settled)
          (elements field)).1 ∧
    (replaceWork E pid field t).2 =
      (storedRows (fun x => (workRow E pid x).map fun mk => (mk 0).settled)
        (elements field)).2 := by
  have h := replaceRows_view (fun r : WorkRow => r.id) (fun r => r.profile_id)
    (workRow E pid) pid WorkRow.settled
    (fun x mk h i => (workRow_spec E pid x mk h i).1)
    (fun x mk h i => (workRow_spec E pid x mk h i).2) field t
  refine ⟨?_, h.2⟩
  rw [← h.1, ← map_orderByDesc (fun r : WorkRow => r.start_date) WorkRow.settled (fun _ => rfl)]
  rfl

/-! ## The profile row and the links row -/

theorem upsertProfile_fail (E : Engine) (now : Clock) (body : Payload) (s : Store)
    (h : (upsertProfile E now body s).2 = false) : upsertProfile E now body s = (s, false) := by
  unfold upsertProfile at h ⊢
  cases hp : s.profile.head? <;> simp only [hp] at h ⊢ <;> split <;> simp_all

theorem upsertProfile_flag (E : Engine) (now now' : Clock) (body : Payload) (s s' : Store) :
    (upsertProfile E now body s).2 = (upsertProfile E now' body s').2 := by
  unfold upsertProfile
  cases hp : s.profile.head? <;> cases hp' : s'.profile.head? <;> simp only <;> split <;> simp_all

theorem upsertProfile_head (E : Engine) (now : Clock) (body : Payload) (s : Store)
    (hok : (upsertProfile E now body s).2 = true) :
    ∃ h, (upsertProfile E now body s).1.profile.head? = some h ∧ h.id = targetId s ∧
      h.name = E.textCell body.name ∧ h.email = E.textCell body.email ∧
      h.bio = E.textCell body.bio := by
  unfold upsertProfile at hok ⊢
  unfold targetId
  cases hp : s.profile with
  | nil =>
    simp only [hp, List.head?_nil] at hok ⊢
    split at hok
    · cases hok
    · rw [if_neg (by assumption)]
      exact ⟨_, rfl, rfl, rfl, rfl, rfl⟩
  | cons ex tl =>
    simp only [hp, List.head?_cons] at hok ⊢
    split at hok
    · cases hok
    · rw [if_neg (by assumption)]
      simp

theorem upsertProfile_again (E : Engine) (now : Clock) (body : Payload) (s : Store)
    (h : ProfileRow) (hh : s.profile.head? = some h)
    (hn : h.name = E.textCell body.name) (he : h.email = E.textCell body.email)
    (hb : h.bio = E.textCell body.bio)
    (hok : (upsertProfile E now body s).2 = true) :
    (upsertProfile E now body s).1.profile.head? = some { h with updated_at := .text now.profile } := by
  unfold upsertProfile at hok ⊢
  cases hp : s.profile with
  | nil => simp [hp] at hh
  | cons ex tl =>
    simp only [hp, List.head?_cons, Option.some.injEq] at hh hok ⊢
    subst hh
    split at hok
    · cases hok
    · rw [if_neg (by assumption)]
      simp [← hn, ← he, ← hb]

theorem putProfile_of_fail (E : Engine) (now : Clock) (s : Store) (body : Payload)
    (h : (upsertProfile E now body s).2 = false) : putProfile E now s body = (s, false) := by
  unfold putProfile
  rw [upsertProfile_fail E now body s h]
  rfl

theorem getProp_of_truthy (v : JsVal) (k : String) (h : truthy v = true) :
    ∃ w, getProp v k = some w := by
  cases v <;> simp [truthy, getProp] at h ⊢

theorem upsertLinks_flag (E : Engine) (pid : Int) (links : JsVal) (t : Table LinksRow) :
    (upsertLinks E pid links t).2 = true := by
  unfold upsertLinks
  by_cases ht : truthy links = true
  · obtain ⟨a, ha⟩ := getProp_of_truthy links "github" ht
    obtain ⟨b, hb⟩ := getProp_of_truthy links "linkedin" ht
    obtain ⟨c, hc⟩ := getProp_of_truthy links "portfolio" ht
    obtain ⟨d, hd⟩ := getProp_of_truthy links "resume" ht
    simp only [ht, if_true, ha, hb, hc, hd]
    split <;> rfl
  · simp [ht]

theorem upsertLinks_idem (E : Engine) (pid : Int) (links : JsVal) (t : Table LinksRow) :
    (upsertLinks E pid links (upsertLinks E pid links t).1).1 = (upsertLinks E pid links t).1 := by
  unfold upsertLinks
  by_cases ht : truthy links = true
  · obtain ⟨a, ha⟩ := getProp_of_truthy links "github" ht
    obtain ⟨b, hb⟩ := getProp_of_truthy links "linkedin" ht
    obtain ⟨c, hc⟩ := getProp_of_truthy links "portfolio" ht
    obtain ⟨d, hd⟩ := getProp_of_truthy links "resume" ht
    simp only [ht, if_true, ha, hb, hc, hd]
    cases hf : t.rows.find? (fun r => r.profile_id = pid) with
    | some r0 =>
      have hcomp : ((fun r : LinksRow => decide (r.profile_id = pid)) ∘ fun r : LinksRow =>
          if r.profile_id = pid then
            { r with github := E.textCell a, linkedin := E.textCell b,
                     portfolio := E.textCell c, resume := E.textCell d }
          else r) = fun r => decide (r.profile_id = pid) := by
        funext r
        by_cases hr : r.profile_id = pid <;> simp [hr]
      have hf2 : ((t.rows.map fun r : LinksRow =>
          if r.profile_id = pid then
            { r with github := E.textCell a, linkedin := E.textCell b,
                     portfolio := E.textCell c, resume := E.textCell d }
          else r).find? (fun r => r.profile_id = pid)).isSome = true := by
        rw [List.find?_map, hcomp, hf]
        rfl
      obtain ⟨r1, hr1⟩ := Option.isSome_iff_exists.1 hf2
      simp only [hr1]
      congr 1
      rw [List.map_map]
      apply List.map_congr_left
      intro r _
      by_cases hr : r.profile_id = pid <;> simp [hr]
    | none =>
      have hnone : ∀ x ∈ t.rows, ¬ x.profile_id = pid := by
        simpa using List.find?_eq_none.1 hf
      simp only [Table.insert, List.find?_append, hf, Option.none_or, List.find?_cons_of_pos,
        decide_True, List.map_append, List.map_cons, List.map_nil, if_true]
      congr 1
      congr 1
      conv_rhs => rw [← List.map_id t.rows]
      apply List.map_congr_left
      intro r hr
      simp [hnone r hr]
  · simp [ht]

theorem settledReply_getProfile (s : Store) (h : ProfileRow) (hh : s.profile.head? = some h) :
    settledReply (getProfile s) =
      .ok { profile := { h with updated_at := .null }
            education := educationView h.id s.education
            skills := skillsView h.id s.skills
            projects := projectsView h.id s.projects
            work := workView h.id s.work
            links := s.links.rows.find? (fun r => r.profile_id = h.id) } := by
  unfold getProfile
  rw [hh]
  rfl

/-! ## `GET /profile` after a successful `PUT /profile` -/

theorem storedRows_all {β : Type} (f : JsVal → Option β) :
    ∀ xs : List JsVal, (storedRows f xs).2 = true → (storedRows f xs).1.map some = xs.map f
  | [], _ => rfl
  | x :: xs, h => by
    cases hx : f x with
    | none => simp [storedRows, hx] at h
    | some b =>
      simp only [storedRows, hx] at h ⊢
      simp [storedRows_all f xs h, hx]

/-- What `GET /profile` returns after a successful `PUT /profile`, up to the
ids and timestamps: the profile row of the target id with the bound `name`,
`email` and `bio`; one education row per element of the field, in its order;
the names of one skill row per element, by stored proficiency descending;
one project row per element, with `links` the stored text, in the order of
their `created_at`, which is the order of the field when every insert of the
request read the same second; one work row per element, by `start_date`
descending. -/
theorem put_then_get_rows (E : Engine) (now : Clock) (s : Store) (body : Payload)
    (hok : (putProfile E now s body).2 = true) :
    ∃ (h : ProfileRow) (es : List EducationRow) (ks : List SkillRow) (ps shown : List ProjectRow)
      (ws : List WorkRow),
      h.id = targetId s ∧ h.name = E.textCell body.name ∧ h.email = E.textCell body.email ∧
      h.bio = E.textCell body.bio ∧
      es.map some = (elements body.education).map
        (fun x => (educationRow E (targetId s) x).map fun mk => (mk 0).settled) ∧
      ks.map some = (elements body.skills).map
        (fun x => (skillRow E (targetId s) x).map fun mk => (mk 0).settled) ∧
      ps.map some = (elements body.projects).map
        (fun x => (projectRow E "" (targetId s) x).map fun mk => (mk 0).settled) ∧
      shown.Perm ps ∧ ((∀ i j, now.project i = now.project j) → shown = ps) ∧
      ws.map some = (elements body.work).map
        (fun x => (workRow E (targetId s) x).map fun mk => (mk 0).settled) ∧
      settledReply (getProfile (putProfile E now s body).1) =
        .ok { profile := { h with updated_at := .null }
              education := es
              skills := (orderByDesc (fun r : SkillRow => r.proficiency) ks).map fun r => r.skill
              projects := shown
              work := orderByDesc (fun r : WorkRow => r.start_date) ws
              links := (putProfile E now s body).1.links.rows.find?
                (fun r => r.profile_id = targetId s) } := by
  obtain ⟨Fok, Fp, Fe, Fk, Fj, Fw, -, -⟩ := putProfile_fields E now s body
  rw [hok] at Fok
  simp only [Bool.true_eq, Bool.and_eq_true] at Fok
  obtain ⟨⟨⟨⟨⟨hU, he⟩, hk⟩, hj⟩, hw⟩, -⟩ := Fok
  obtain ⟨h, hh, hid, hn, hem, hb⟩ := upsertProfile_head E now body s hU
  have hs1 : (putProfile E now s body).1.profile.head? = some h := by rw [Fp]; exact hh
  simp only [hU, he, hk, hj, Bool.and_self, if_true] at Fe Fk Fj Fw
  have Ae := education_after E (targetId s) body.education s.education
  have Ak := skills_after E (targetId s) body.skills s.skills
  have Aj := projects_after E now (targetId s) body.projects s.projects
  have Aw := work_after E (targetId s) body.work s.work
  refine ⟨h, _, _, _, _, _, hid, hn, hem, hb,
    storedRows_all _ _ (Ae.2 ▸ he), storedRows_all _ _ (Ak.2 ▸ hk),
    storedRows_all _ _ (Aj.2.2 ▸ hj), Aj.1, Aj.2.1, storedRows_all _ _ (Aw.2 ▸ hw), ?_⟩
  rw [settledReply_getProfile _ _ hs1, Fe, Fk, Fj, Fw, hid, Ae.1, Ak.1, Aw.1]

/-! ## `PUT /profile` twice -/

theorem withProjects_projectsOf (r : Reply ProfileView) : withProjects (projectsOf r) r = r := by
  cases r <;> rfl

/-- Counterexample to C5: the same body, with one education entry, two
projects and one work entry, is put twice on the empty store.  Every
statement of the first request runs in one second; during the second request
the second changes between the two `INSERT INTO projects`.  `GET /profile`
shows the education row and the work row with id 1 after the first request
and with id 2 after the second, and the projects as Compiler, Parser after
the first and as Parser, Compiler after the second, under new ids and with
new `created_at`: the two results differ in fields other than `updated_at`,
and in the order of the projects. -/
theorem second_put_renews_ids_and_order :
    ∃ v1 v2,
      getProfile (putProfile Engine.sample stamp emptyStore portfolioPayload).1 = .ok v1 ∧
      getProfile (putProfile Engine.sample laterClock
        (putProfile Engine.sample stamp emptyStore portfolioPayload).1 portfolioPayload).1 = .ok v2 ∧
      v1.education.map (fun r => r.id) = [1] ∧ v2.education.map (fun r => r.id) = [2] ∧
      v1.work.map (fun r => r.id) = [1] ∧ v2.work.map (fun r => r.id) = [2] ∧
      v1.projects.map (fun r => (r.id, r.title)) = [(1, .text "Compiler"), (2, .text "Parser")] ∧
      v2.projects.map (fun r => (r.id, r.title)) = [(4, .text "Parser"), (3, .text "Compiler")] ∧
      v1.projects.map (fun r => r.created_at) =
        [.text "2024-05-01 10:00:00", .text "2024-05-01 10:00:00"] ∧
      v2.projects.map (fun r => r.created_at) =
        [.text "2024-05-01 10:00:06", .text "2024-05-01 10:00:05"] :=
  ⟨_, _, rfl, rfl, by decide, by decide, by decide, by decide, by decide, by decide, by decide,
    by decide⟩

/-- C5, amended: for every store, body and pair of clocks, `GET /profile`
after the second of two `PUT /profile` requests with the same body equals
`GET /profile` after the first in every field except `updated_at`, the ids of
the education, project and work rows, `created_at` of the projects, and the
order of the projects: the projects after the second request are those after
the first in some order. -/
theorem repeated_put_settled_view (E : Engine) (now1 now2 : Clock) (s : Store) (body : Payload) :
    ∃ shown : List ProjectRow,
      shown.Perm (projectsOf (settledReply (getProfile (putProfile E now1 s body).1))) ∧
      settledReply (getProfile
          (putProfile E now2 (putProfile E now1 s body).1 body).1) =
        withProjects shown (settledReply (getProfile (putProfile E now1 s body).1)) := by
  by_cases hU : (upsertProfile E now1 body s).2 = true
  · obtain ⟨-, F1p, F1e, F1k, F1j, F1w, F1l, -⟩ := putProfile_fields E now1 s body
    obtain ⟨-, F2p, F2e, F2k, F2j, F2w, F2l, -⟩ :=
      putProfile_fields E now2 (putProfile E now1 s body).1 body
    obtain ⟨h1, hh1, hid1, hn, he, hb⟩ := upsertProfile_head E now1 body s hU
    have hs1 : (putProfile E now1 s body).1.profile.head? = some h1 := by rw [F1p]; exact hh1
    have hpid : targetId (putProfile E now1 s body).1 = targetId s := by
      simp [targetId, hs1, hid1]
    have hU2 : (upsertProfile E now2 body (putProfile E now1 s body).1).2 = true :=
      (upsertProfile_flag E now2 now1 body _ s).trans hU
    have hs2 : (putProfile E now2 (putProfile E now1 s body).1 body).1.profile.head? =
        some { h1 with updated_at := .text now2.profile } := by
      rw [F2p]; exact upsertProfile_again E now2 body _ h1 hs1 hn he hb hU2
    rw [settledReply_getProfile _ _ hs2, settledReply_getProfile _ _ hs1]
    rw [hpid] at F2e F2k F2j F2w F2l
    simp only [hU, hU2, Bool.true_and, if_true,
      (education_after E (targetId s) body.education _).2,
      (skills_after E (targetId s) body.skills _).2,
      (projects_after E _ (targetId s) body.projects _).2.2,
      (work_after E (targetId s) body.work _).2] at F1e F1k F1j F1w F1l F2e F2k F2j F2w F2l
    refine ⟨projectsView (targetId s)
      (putProfile E now2 (putProfile E now1 s body).1 body).1.projects, ?_, ?_⟩
    · simp only [projectsOf, hid1]
      rw [F2j, F1j]
      split_ifs
      · exact (projects_after _ _ _ _ _).1.trans (projects_after _ _ _ _ _).1.symm
      · exact List.Perm.refl _
    · simp only [withProjects, Reply.ok.injEq, ProfileView.mk.injEq, hid1]
      refine ⟨trivial, ?_, ?_, trivial, ?_, ?_⟩
      · rw [F2e, F1e, (education_after _ _ _ _).1, (education_after _ _ _ _).1]
      · rw [F2k, F1k]
        split_ifs
        · rw [(skills_after _ _ _ _).1, (skills_after _ _ _ _).1]
        · rfl
      · rw [F2w, F1w]
        split_ifs
        · rw [(work_after _ _ _ _).1, (work_after _ _ _ _).1]
        · rfl
      · rw [F2l, F1l]
        split_ifs
        · rw [upsertLinks_idem]
        · rfl
  · have hF : (upsertProfile E now1 body s).2 = false := by simpa using hU
    have h1 : putProfile E now1 s body = (s, false) := putProfile_of_fail E now1 s body hF
    have h2 : putProfile E now2 s body = (s, false) :=
      putProfile_of_fail E now2 s body ((upsertProfile_flag E now2 now1 body s s).trans hF)
    rw [h1]
    simp only
    rw [h2]
    exact ⟨_, List.Perm.refl _, (withProjects_projectsOf _).symm⟩

/-- When every `INSERT INTO projects` of each of the two requests reads the
same second, the projects come in the same order too: the answers are equal
in every field except `updated_at`, the ids of the education, project and
work rows and `created_at` of the projects. -/
theorem repeated_put_same_second (E : Engine) (now1 now2 : Clock) (s : Store) (body : Payload)
    (h1 : ∀ i j, now1.project i = now1.project j) (h2 : ∀ i j, now2.project i = now2.project j) :
    settledReply (getProfile
        (putProfile E now2 (putProfile E now1 s body).1 body).1) =
      settledReply (getProfile (putProfile E now1 s body).1) := by
  by_cases hU : (upsertProfile E now1 body s).2 = true
  · obtain ⟨-, F1p, F1e, F1k, F1j, F1w, F1l, -⟩ := putProfile_fields E now1 s body
    obtain ⟨-, F2p, F2e, F2k, F2j, F2w, F2l, -⟩ :=
      putProfile_fields E now2 (putProfile E now1 s body).1 body
    obtain ⟨h1', hh1, hid1, hn, he, hb⟩ := upsertProfile_head E now1 body s hU
    have hs1 : (putProfile E now1 s body).1.profile.head? = some h1' := by rw [F1p]; exact hh1
    have hpid : targetId (putProfile E now1 s body).1 = targetId s := by
      simp [targetId, hs1, hid1]
    have hU2 : (upsertProfile E now2 body (putProfile E now1 s body).1).2 = true :=
      (upsertProfile_flag E now2 now1 body _ s).trans hU
    have hs2 : (putProfile E now2 (putProfile E now1 s body).1 body).1.profile.head? =
        some { h1' with updated_at := .text now2.profile } := by
      rw [F2p]; exact upsertProfile_again E now2 body _ h1' hs1 hn he hb hU2
    rw [settledReply_getProfile _ _ hs2, settledReply_getProfile _ _ hs1]
    rw [hpid] at F2e F2k F2j F2w F2l
    simp only [hU, hU2, Bool.true_and, if_true,
      (education_after E (targetId s) body.education _).2,
      (skills_after E (targetId s) body.skills _).2,
      (projects_after E _ (targetId s) body.projects _).2.2,
      (work_after E (targetId s) body.work _).2] at F1e F1k F1j F1w F1l F2e F2k F2j F2w F2l
    simp only [Reply.ok.injEq, ProfileView.mk.injEq, hid1]
    refine ⟨trivial, ?_, ?_, ?_, ?_, ?_⟩
    · rw [F2e, F1e, (education_after _ _ _ _).1, (education_after _ _ _ _).1]
    · rw [F2k, F1k]
      split_ifs
      · rw [(skills_after _ _ _ _).1, (skills_after _ _ _ _).1]
      · rfl
    · rw [F2j, F1j]
      split_ifs
      · rw [(projects_after _ _ _ _ _).2.1 h2, (projects_after _ _ _ _ _).2.1 h1]
      · rfl
    · rw [F2w, F1w]
      split_ifs
      · rw [(work_after _ _ _ _).1, (work_after _ _ _ _).1]
      · rfl
    · rw [F2l, F1l]
      split_ifs
      · rw [upsertLinks_idem]
      · rfl
  · have hF : (upsertProfile E now1 body s).2 = false := by simpa using hU
    have h1 : putProfile E now1 s body = (s, false) := putProfile_of_fail E now1 s body hF
    have h2 : putProfile E now2 s body = (s, false) :=
      putProfile_of_fail E now2 s body ((upsertProfile_flag E now2 now1 body s s).trans hF)
    rw [h1]
    simp only
    rw [h2]

/-! ## `GET /skills/top` and `GET /search` -/

/-- C7: `GET /skills/top` answers `min 10 n` entries for the `n` skill rows
of profile 1; their proficiencies do not increase along the list (in the
order of `ORDER BY`); and the rows left out, which together with the answer
make up all rows of profile 1, have a proficiency no greater than that of
every returned entry, in particular of the last one. -/
theorem skills_top_ranked (s : Store) :
    (getSkillsTop s).length = min 10 (s.skills.rows.filter (fun r => r.profile_id = 1)).length ∧
    (getSkillsTop s).Pairwise (fun a b => sqlLe b.proficiency a.proficiency = true) ∧
    ∃ rest : List SkillRow,
      ((getSkillsTop s) ++ rest.map (fun r => ({ skill := r.skill, proficiency := r.proficiency } : TopSkill))).Perm
        ((s.skills.rows.filter (fun r => r.profile_id = 1)).map
          (fun r => ({ skill := r.skill, proficiency := r.proficiency } : TopSkill))) ∧
      (∀ r ∈ rest, ∀ t ∈ getSkillsTop s, sqlLe r.proficiency t.proficiency = true) ∧
      (∀ r ∈ rest, ∀ t, (getSkillsTop s).getLast? = some t → sqlLe r.proficiency t.proficiency = true) := by
  set rows := s.skills.rows.filter (fun r => r.profile_id = 1) with hrows
  set sorted := orderByDesc (fun r : SkillRow => r.proficiency) rows with hsorted
  have hs : sorted.Pairwise (descBy fun r : SkillRow => r.proficiency) := orderByDesc_sorted _ _
  have hp : sorted.Perm rows := orderByDesc_perm _ _
  have htop : getSkillsTop s = (sorted.take 10).map
      (fun r => ({ skill := r.skill, proficiency := r.proficiency } : TopSkill)) := rfl
  have hsplit : (sorted.take 10 ++ sorted.drop 10).Pairwise
      (descBy fun r : SkillRow => r.proficiency) := by
    rw [List.take_append_drop]; exact hs
  have hcross : ∀ r ∈ sorted.drop 10, ∀ t ∈ getSkillsTop s,
      sqlLe r.proficiency t.proficiency = true := by
    intro r hr t ht
    rw [htop, List.mem_map] at ht
    obtain ⟨x, hx, rfl⟩ := ht
    exact (List.pairwise_append.1 hsplit).2.2 x hx r hr
  refine ⟨?_, ?_, sorted.drop 10, ?_, hcross, ?_⟩
  · rw [htop, List.length_map, List.length_take, hp.length_eq]
  · rw [htop, List.pairwise_map]
    exact (hs.sublist (List.take_sublist _ _)).imp (fun h => h)
  · rw [htop, ← List.map_append, List.take_append_drop]
    exact hp.map _
  · intro r hr t ht
    exact hcross r hr t (List.mem_of_getLast?_eq_some ht)

theorem jsLength_pos_of_ne {x : String} (h : 2 ≤ jsLength x) : x ≠ "" := by
  rintro rfl
  simp [jsLength] at h

/-- C8: when `q` is absent or has fewer than 2 characters (UTF-16 code units,
as `q.length` counts) `GET /search` answers `{results: []}` whatever the
store holds; when `q` has 2 or more it answers the three lists, each of at
most 5 elements, `skills` without a repeated name, and a list is empty when
no row of profile 1 matches its test. -/
theorem search_short_or_capped (s : Store) (q : Option String) :
    ((q = none ∨ ∃ x, q = some x ∧ jsLength x < 2) → getSearch s q = .results) ∧
    (∀ x, q = some x → 2 ≤ jsLength x →
      ∃ ps ks es, getSearch s q = .lists ps ks es ∧
        ps.length ≤ 5 ∧ ks.length ≤ 5 ∧ es.length ≤ 5 ∧ ks.Nodup ∧
        ((∀ r ∈ s.projects.rows, r.profile_id = 1 →
            sqlLike ("%" ++ x ++ "%") r.title = false ∧
            sqlLike ("%" ++ x ++ "%") r.description = false) → ps = []) ∧
        ((∀ r ∈ s.skills.rows, r.profile_id = 1 →
            sqlLike ("%" ++ x ++ "%") r.skill = false) → ks = []) ∧
        ((∀ r ∈ s.education.rows, r.profile_id = 1 →
            sqlLike ("%" ++ x ++ "%") r.school = false ∧
            sqlLike ("%" ++ x ++ "%") r.degree = false ∧
            sqlLike ("%" ++ x ++ "%") r.field = false) → es = [])) := by
  constructor
  · rintro (rfl | ⟨x, rfl, hx⟩)
    · rfl
    · simp [getSearch, hx]
  · rintro x rfl hx
    have hne : x ≠ "" := jsLength_pos_of_ne hx
    have hlt : ¬ jsLength x < 2 := by omega
    refine ⟨_, _, _, by simp [getSearch, searchQueries, truthy, hne, hlt]; exact ⟨rfl, rfl, rfl⟩,
      ?_, ?_, ?_, ?_, ?_, ?_, ?_⟩
    · simp [List.length_take]
    · simp [List.length_take]
    · simp [List.length_take]
    · exact (nodup_distinct _).sublist (List.take_sublist _ _)
    · intro h
      have : (s.projects.rows.filter fun r => decide (r.profile_id = 1) &&
          (sqlLike ("%" ++ x ++ "%") r.title || sqlLike ("%" ++ x ++ "%") r.description)) = [] := by
        rw [List.filter_eq_nil_iff]
        intro r hr
        by_cases h1 : r.profile_id = 1
        · simp [h1, (h r hr h1).1, (h r hr h1).2]
        · simp [h1]
      simp [this]
    · intro h
      have : (s.skills.rows.filter fun r => decide (r.profile_id = 1) &&
          sqlLike ("%" ++ x ++ "%") r.skill) = [] := by
        rw [List.filter_eq_nil_iff]
        intro r hr
        by_cases h1 : r.profile_id = 1
        · simp [h1, h r hr h1]
        · simp [h1]
      simp [this, distinct]
    · intro h
      have : (s.education.rows.filter fun r => decide (r.profile_id = 1) &&
          (sqlLike ("%" ++ x ++ "%") r.school || sqlLike ("%" ++ x ++ "%") r.degree ||
            sqlLike ("%" ++ x ++ "%") r.field)) = [] := by
        rw [List.filter_eq_nil_iff]
        intro r hr
        by_cases h1 : r.profile_id = 1
        · simp [h1, (h r hr h1).1, (h r hr h1).2.1, (h r hr h1).2.2]
        · simp [h1]
      simp [this]

/-- Witness of C8 on `linkedStore`: the one-character query `C` gets the
fixed body, and the query `zz`, which no row matches, gets three empty lists. -/
theorem search_short_or_capped_witness :
    getSearch linkedStore (some "C") = .results ∧
    getSearch linkedStore (some "zz") = .lists [] [] [] :=
  ⟨(search_short_or_capped linkedStore (some "C")).1 (Or.inr ⟨"C", rfl, by decide⟩),
   match (search_short_or_capped linkedStore (some "zz")).2 "zz" rfl (by decide) with
   | ⟨_, _, _, heq, _, _, _, _, hp, hk, he⟩ => by
     rw [heq, hp (by decide), hk (by decide), he (by decide)]⟩

/-! ## `GET /projects` and the projects of `GET /profile` -/

/-- `projects.map` succeeds when every stored `links` cell deserializes, and
then each element is its row with `links` deserialized. -/
theorem mapWithLinks_of_readable : ∀ l : List ProjectRow,
    (∀ r ∈ l, (readLinks r.links).isSome = true) →
      ∃ vs, mapWithLinks l = some vs ∧
        List.Forall₂ (fun (p : ProjectView) (r : ProjectRow) =>
          p.id = r.id ∧ p.profile_id = r.profile_id ∧ p.title = r.title ∧
          p.description = r.description ∧ p.created_at = r.created_at ∧
          readLinks r.links = some p.links) vs l
  | [], _ => ⟨[], rfl, List.Forall₂.nil⟩
  | r :: l, h => by
    obtain ⟨vs, hvs, hall⟩ := mapWithLinks_of_readable l (fun x hx => h x (List.mem_cons_of_mem _ hx))
    have hr := h r (List.mem_cons_self _ _)
    obtain ⟨v, hv⟩ := Option.isSome_iff_exists.1 hr
    refine ⟨ProjectView.mk r.id r.profile_id r.title r.description v r.created_at :: vs, ?_, ?_⟩
    · simp [mapWithLinks, withLinks, hv, hvs]
    · exact List.Forall₂.cons ⟨rfl, rfl, rfl, rfl, rfl, hv⟩ hall

/-- `JSON.parse` reads a number with a fraction or an exponent: the links
texts `[1.5]`, `[1e2]` and `[0.0]` deserialize, and a project put with the
links `[1.5]` is stored with the text `[1.5]` and returned by
`GET /projects` with the links `[1.5]`. -/
theorem readLinks_reads_fractions :
    readLinks (.text "[1.5]") = some (.arr [.dec 15 1]) ∧
    readLinks (.text "[1e2]") = some (.arr [.num 100]) ∧
    readLinks (.text "[0.0]") = some (.arr [.num 0]) ∧
    readLinks (.text "[-2.50E-3, 7]") = some (.arr [.dec (-25) 4, .num 7]) ∧
    (putProfile Engine.sample stamp emptyStore fractionPayload).1.projects.rows.map
      (fun r => r.links) = [.text "[1.5]"] ∧
    ∃ all, getProjects (putProfile Engine.sample stamp emptyStore fractionPayload).1 none =
        .ok all ∧ all.map (fun p => p.links) = [.arr [.dec 15 1]] :=
  ⟨rfl, rfl, rfl, rfl, by decide, _, rfl, rfl⟩

/-- C10, amended: when the profile row has id 1 and every stored `links` cell
of its projects is unset or well-formed, that is, `p.links ? JSON.parse(p.links)
: []` does not throw on it, `GET /projects` without `skill` answers the
projects `GET /profile` returns, in the same order and each with `links`
deserialized; they are the project rows of profile 1, by `created_at`
descending. -/
theorem get_projects_matches_profile_one (s : Store) (profile : ProfileRow)
    (hp : s.profile.head? = some profile) (hid : profile.id = 1)
    (hlinks : ∀ r ∈ s.projects.rows, r.profile_id = 1 → (readLinks r.links).isSome = true) :
    ∃ v all, getProfile s = .ok v ∧ getProjects s none = .ok all ∧
      List.Forall₂ (fun (p : ProjectView) (r : ProjectRow) =>
        p.id = r.id ∧ p.profile_id = r.profile_id ∧ p.title = r.title ∧
        p.description = r.description ∧ p.created_at = r.created_at ∧
        readLinks r.links = some p.links) all v.projects ∧
      v.projects.Perm (s.projects.rows.filter fun r => r.profile_id = 1) ∧
      v.projects.Pairwise (fun a b => sqlLe b.created_at a.created_at = true) := by
  have hq : projectsQuery s none = orderByDesc (fun r : ProjectRow => r.created_at)
      (s.projects.rows.filter fun r => r.profile_id = 1) := by
    simp [projectsQuery, queryParam, truthy]
  have hread : ∀ r ∈ projectsQuery s none, (readLinks r.links).isSome = true := by
    intro r hr
    rw [hq] at hr
    have hm := ((orderByDesc_perm _ _).mem_iff).1 hr
    rw [List.mem_filter] at hm
    exact hlinks r hm.1 (by simpa using hm.2)
  obtain ⟨all, hall, hrel⟩ := mapWithLinks_of_readable _ hread
  refine ⟨_, all, by unfold getProfile; rw [hp], by simp only [getProjects, hall], ?_, ?_, ?_⟩
  · simpa only [hid, ← hq] using hrel
  · simpa only [hid] using orderByDesc_perm _ _
  · simpa only [hid] using orderByDesc_sorted (fun r : ProjectRow => r.created_at) _

/-- Witness of the amended C10 on `linkedStore`. -/
theorem get_projects_matches_profile_one_witness :
    ∃ v all, getProfile linkedStore = .ok v ∧ getProjects linkedStore none = .ok all ∧
      List.Forall₂ (fun (p : ProjectView) (r : ProjectRow) =>
        p.id = r.id ∧ p.profile_id = r.profile_id ∧ p.title = r.title ∧
        p.description = r.description ∧ p.created_at = r.created_at ∧
        readLinks r.links = some p.links) all v.projects ∧
      v.projects.Perm (linkedStore.projects.rows.filter fun r => r.profile_id = 1) ∧
      v.projects.Pairwise (fun a b => sqlLe b.created_at a.created_at = true) :=
  get_projects_matches_profile_one linkedStore profileOne rfl rfl (by
    intro r hr _
    simp only [linkedStore, emptyStore, List.mem_cons, List.mem_singleton, List.not_mem_nil,
      or_false] at hr
    rcases hr with rfl | rfl <;> rfl)

/-! ## The profile row under `PUT /profile` -/

theorem targetId_eq (s : Store) : targetId s = (s.profile.head?.map fun r => r.id).getD 1 := by
  unfold targetId
  cases s.profile.head? <;> rfl

/-- The profile table after the first statement of `PUT /profile` on a store
with at most one profile row: unchanged when the statement throws, the one
row with the bound `name`, `email` and `bio` otherwise. -/
theorem upsertProfile_single (E : Engine) (now : Clock) (body : Payload) (s : Store)
    (hlen : s.profile.length ≤ 1) :
    ((upsertProfile E now body s).2 = false ∧ (upsertProfile E now body s).1.profile = s.profile) ∨
    ((upsertProfile E now body s).2 = true ∧
      ∃ row, (upsertProfile E now body s).1.profile = [row] ∧ row.id = targetId s ∧
        row.name = E.textCell body.name ∧ row.email = E.textCell body.email ∧
        row.bio = E.textCell body.bio ∧ row.updated_at = .text now.profile ∧
        (s.profile = [] → row.created_at = .text now.profile) ∧
        (∀ old, s.profile = [old] → row.created_at = old.created_at)) := by
  unfold upsertProfile targetId
  cases hp : s.profile with
  | nil =>
    simp only [List.head?_nil]
    split
    · exact Or.inl ⟨rfl, hp⟩
    · exact Or.inr ⟨rfl, ProfileRow.mk 1 (E.textCell body.name) (E.textCell body.email)
        (E.textCell body.bio) (.text now.profile) (.text now.profile), by simp [hp], rfl, rfl, rfl, rfl, rfl,
        fun _ => rfl, fun old h => by cases h⟩
  | cons r tl =>
    cases tl with
    | cons r2 tl2 => simp [hp] at hlen
    | nil =>
      simp only [List.head?_cons]
      split
      · exact Or.inl ⟨rfl, hp⟩
      · refine Or.inr ⟨rfl, ProfileRow.mk r.id (E.textCell body.name) (E.textCell body.email)
          (E.textCell body.bio) r.created_at (.text now.profile), by simp [hp], rfl, rfl, rfl, rfl, rfl,
          fun h => absurd h (List.cons_ne_nil _ _), ?_⟩
        intro old h
        simp only [List.cons.injEq, and_true] at h
        subst h
        rfl

/-- C12: on a store with at most one profile row, `PUT /profile` writes to
the id of the existing profile row, or to id 1 when there is none; whether it
succeeds or not it leaves at most one profile row; and when it succeeds it
leaves exactly one, with the target id and with the cells bound for the
`name`, `email` and `bio` of the body (a string is stored as itself), an
existing row keeping its `created_at`. -/
theorem put_keeps_single_profile (E : Engine) (now : Clock) (s : Store) (body : Payload)
    (hlen : s.profile.length ≤ 1) :
    targetId s = (s.profile.head?.map fun r => r.id).getD 1 ∧
    (putProfile E now s body).1.profile.length ≤ 1 ∧
    ((putProfile E now s body).2 = true →
      ∃ row, (putProfile E now s body).1.profile = [row] ∧ row.id = targetId s ∧
        row.name = E.textCell body.name ∧ row.email = E.textCell body.email ∧
        row.bio = E.textCell body.bio ∧
        (∀ n, body.name = .str n → row.name = .text n) ∧
        (∀ n, body.email = .str n → row.email = .text n) ∧
        (∀ n, body.bio = .str n → row.bio = .text n) ∧
        (∀ old, s.profile = [old] → row.id = old.id ∧ row.created_at = old.created_at)) := by
  obtain ⟨hok, hp, -⟩ := putProfile_fields E now s body
  refine ⟨targetId_eq s, ?_, fun hs => ?_⟩
  · rw [hp]
    rcases upsertProfile_single E now body s hlen with ⟨-, h⟩ | ⟨-, row, h, -⟩
    · rw [h]; exact hlen
    · rw [h]; simp
  · rw [hs] at hok
    simp only [Bool.true_eq, Bool.and_eq_true] at hok
    have hU := hok.1.1.1.1.1
    rcases upsertProfile_single E now body s hlen with ⟨hf, -⟩ | ⟨-, row, h, hid, hn, he, hb, -, -, hc⟩
    · rw [hU] at hf; cases hf
    · refine ⟨row, by rw [hp, h], hid, hn, he, hb, ?_, ?_, ?_, ?_⟩
      · intro n hbn; rw [hn, hbn]; rfl
      · intro n hbn; rw [he, hbn]; rfl
      · intro n hbn; rw [hb, hbn]; rfl
      · intro old ho
        refine ⟨?_, hc old ho⟩
        rw [hid]
        simp [targetId, ho]

/-- Witness of C12 on `schooledStore`, whose one profile row has id 1, with a
body of `name` and `email`. -/
theorem put_keeps_single_profile_witness :
    targetId schooledStore = (schooledStore.profile.head?.map fun r => r.id).getD 1 ∧
    (putProfile Engine.sample stamp schooledStore barePayload).1.profile.length ≤ 1 ∧
    ∃ row, (putProfile Engine.sample stamp schooledStore barePayload).1.profile = [row] ∧
      row.id = targetId schooledStore ∧ row.name = .text "Ada" ∧
      row.email = .text "ada@example.org" ∧
      row.id = profileOne.id ∧ row.created_at = profileOne.created_at :=
  match put_keeps_single_profile Engine.sample stamp schooledStore barePayload (by decide) with
  | ⟨h1, h2, h3⟩ =>
    match h3 (by decide) with
    | ⟨row, hrow, hid, _, _, _, hn, he, _, hold⟩ =>
      ⟨h1, h2, row, hrow, hid, hn "Ada" rfl, he "ada@example.org" rfl,
        (hold profileOne rfl).1, (hold profileOne rfl).2⟩

/-! ## The links row under `PUT /profile` -/

theorem textCell_str (E : Engine) (n : String) : E.textCell (.str n) = .text n := rfl

theorem filter_eq_singleton_of_mem {α : Type} (p : α → Bool) (l : List α) (a : α)
    (ha : a ∈ l) (hp : p a = true) (hlen : (l.filter p).length ≤ 1) : l.filter p = [a] := by
  have hm : a ∈ l.filter p := List.mem_filter.2 ⟨ha, hp⟩
  cases hf : l.filter p with
  | nil => rw [hf] at hm; cases hm
  | cons b tl =>
    cases tl with
    | cons c tl2 => rw [hf] at hlen; simp at hlen
    | nil =>
      rw [hf] at hm
      simp only [List.mem_singleton] at hm
      rw [hm]

/-- The `if (links)` block on a links object, for a table with at most one
row of the profile: afterwards the profile has exactly one row, with the
cells bound for the four properties; the rows of other profiles are as they
were; and a row that existed is that one row, under its id, with no row
inserted. -/
theorem upsertLinks_obj (E : Engine) (pid : Int) (L : List (String × JsVal))
    (t : Table LinksRow)
    (hone : (t.rows.filter fun r => r.profile_id = pid).length ≤ 1) :
    (upsertLinks E pid (.obj L) t).2 = true ∧
    ∃ row, (upsertLinks E pid (.obj L) t).1.rows.filter (fun r => r.profile_id = pid) = [row] ∧
      row.github = E.textCell (lookupKey "github" L) ∧
      row.linkedin = E.textCell (lookupKey "linkedin" L) ∧
      row.portfolio = E.textCell (lookupKey "portfolio" L) ∧
      row.resume = E.textCell (lookupKey "resume" L) ∧
      (upsertLinks E pid (.obj L) t).1.rows.filter (fun r => r.profile_id ≠ pid) =
        t.rows.filter (fun r => r.profile_id ≠ pid) ∧
      (∀ old ∈ t.rows, old.profile_id = pid →
        row.id = old.id ∧
        (upsertLinks E pid (.obj L) t).1.rows.map (fun r => r.id) = t.rows.map (fun r => r.id) ∧
        (upsertLinks E pid (.obj L) t).1.seq = t.seq) := by
  refine ⟨upsertLinks_flag E pid _ t, ?_⟩
  simp only [upsertLinks, truthy, if_true, getProp]
  cases hf : t.rows.find? (fun r => r.profile_id = pid) with
  | some old =>
    have hmem : old ∈ t.rows := List.mem_of_find?_eq_some hf
    have hpid : old.profile_id = pid := by simpa using List.find?_some hf
    have hfil := filter_eq_singleton_of_mem (fun r : LinksRow => decide (r.profile_id = pid))
      t.rows old hmem (by simpa using hpid) hone
    refine ⟨LinksRow.mk old.id old.profile_id (E.textCell (lookupKey "github" L))
      (E.textCell (lookupKey "linkedin" L)) (E.textCell (lookupKey "portfolio" L))
      (E.textCell (lookupKey "resume" L)), ?_, rfl, rfl, rfl, rfl, ?_, ?_⟩
    · simp only
      rw [List.filter_map]
      have hcomp : ((fun r : LinksRow => decide (r.profile_id = pid)) ∘ fun r : LinksRow =>
          if r.profile_id = pid then
            LinksRow.mk r.id r.profile_id (E.textCell (lookupKey "github" L))
              (E.textCell (lookupKey "linkedin" L)) (E.textCell (lookupKey "portfolio" L))
              (E.textCell (lookupKey "resume" L))
          else r) = fun r => decide (r.profile_id = pid) := by
        funext r
        by_cases hr : r.profile_id = pid <;> simp [hr]
      rw [hcomp, hfil]
      simp [hpid]
    · simp only
      rw [List.filter_map]
      have hcomp : ((fun r : LinksRow => decide (r.profile_id ≠ pid)) ∘ fun r : LinksRow =>
          if r.profile_id = pid then
            LinksRow.mk r.id r.profile_id (E.textCell (lookupKey "github" L))
              (E.textCell (lookupKey "linkedin" L)) (E.textCell (lookupKey "portfolio" L))
              (E.textCell (lookupKey "resume" L))
          else r) = fun r => decide (r.profile_id ≠ pid) := by
        funext r
        by_cases hr : r.profile_id = pid <;> simp [hr]
      rw [hcomp]
      conv_rhs => rw [← List.map_id (t.rows.filter fun r => decide (r.profile_id ≠ pid))]
      apply List.map_congr_left
      intro r hr
      have := (List.mem_filter.1 hr).2
      simp only [ne_eq, decide_not, Bool.not_eq_true', decide_eq_false_iff_not] at this
      simp [this]
    · intro old' hmem' hpid'
      have h2 := filter_eq_singleton_of_mem (fun r : LinksRow => decide (r.profile_id = pid))
        t.rows old' hmem' (by simpa using hpid') hone
      rw [hfil] at h2
      simp only [List.cons.injEq, and_true] at h2
      subst h2
      refine ⟨rfl, ?_, rfl⟩
      simp only [List.map_map]
      apply List.map_congr_left
      intro r _
      by_cases hr : r.profile_id = pid <;> simp [hr]
  | none =>
    have hnone : ∀ x ∈ t.rows, ¬ x.profile_id = pid := by
      simpa using List.find?_eq_none.1 hf
    have hfil : t.rows.filter (fun r => decide (r.profile_id = pid)) = [] := by
      rw [List.filter_eq_nil_iff]
      intro r hr
      simpa using hnone r hr
    refine ⟨LinksRow.mk (nextId (t.rows.map fun r => r.id) t.seq) pid
      (E.textCell (lookupKey "github" L))
      (E.textCell (lookupKey "linkedin" L)) (E.textCell (lookupKey "portfolio" L))
      (E.textCell (lookupKey "resume" L)), ?_, rfl, rfl, rfl, rfl, ?_, ?_⟩
    · simp [Table.insert, List.filter_append, hfil]
    · simp [Table.insert, List.filter_append]
    · intro old hmem hpid
      exact absurd hpid (hnone old hmem)

/-- Counterexample to C13: on the empty store, a body with a links object
and an `education` array holding `null` makes the education loop throw; the
request answers 500 before the links block, and no links row exists for the
target profile afterwards. -/
theorem failed_put_leaves_no_links_row :
    brokenPayload.links = .obj [("github", .str "https://github.com/ada"),
      ("resume", .str "https://example.org/cv")] ∧
    (emptyStore.links.rows.filter fun r => r.profile_id = targetId emptyStore).length ≤ 1 ∧
    (putProfile Engine.sample stamp emptyStore brokenPayload).2 = false ∧
    ((putProfile Engine.sample stamp emptyStore brokenPayload).1.links.rows.filter
      fun r => r.profile_id = targetId emptyStore) = [] := by
  refine ⟨rfl, by decide, by decide, by decide⟩

/-- C13, amended: when the body has a links object `L`, the store holds at
most one links row for the target profile and the request succeeds, then
afterwards exactly one links row exists for that profile, its `github`,
`linkedin`, `portfolio` and `resume` are the cells bound for the properties
of `L` (a string is stored as itself), the links rows of other profiles are
as they were, and a row that existed beforehand is that row: same id, no row
inserted or deleted.  When the body has no links (or a falsy one) the links
table is unchanged, whether the request succeeds or not. -/
theorem put_upserts_links (E : Engine) (now : Clock) (s : Store) (body : Payload) :
    (∀ L, body.links = .obj L →
      (s.links.rows.filter fun r => r.profile_id = targetId s).length ≤ 1 →
      (putProfile E now s body).2 = true →
      ∃ row,
        (putProfile E now s body).1.links.rows.filter (fun r => r.profile_id = targetId s) =
          [row] ∧
        row.github = E.textCell (lookupKey "github" L) ∧
        row.linkedin = E.textCell (lookupKey "linkedin" L) ∧
        row.portfolio = E.textCell (lookupKey "portfolio" L) ∧
        row.resume = E.textCell (lookupKey "resume" L) ∧
        (∀ g, lookupKey "github" L = .str g → row.github = .text g) ∧
        (∀ g, lookupKey "linkedin" L = .str g → row.linkedin = .text g) ∧
        (∀ g, lookupKey "portfolio" L = .str g → row.portfolio = .text g) ∧
        (∀ g, lookupKey "resume" L = .str g → row.resume = .text g) ∧
        (putProfile E now s body).1.links.rows.filter (fun r => r.profile_id ≠ targetId s) =
          s.links.rows.filter (fun r => r.profile_id ≠ targetId s) ∧
        (∀ old ∈ s.links.rows, old.profile_id = targetId s →
          row.id = old.id ∧
          (putProfile E now s body).1.links.rows.map (fun r => r.id) =
            s.links.rows.map (fun r => r.id) ∧
          (putProfile E now s body).1.links.seq = s.links.seq)) ∧
    (truthy body.links = false → (putProfile E now s body).1.links = s.links) := by
  obtain ⟨hok, -, -, -, -, -, hl, -⟩ := putProfile_fields E now s body
  constructor
  · intro L hL hone hs
    rw [hs] at hok
    simp only [Bool.true_eq, Bool.and_eq_true] at hok
    rw [hok.1.1.1.1.1, hok.1.1.1.1.2, hok.1.1.1.2, hok.1.1.2, hok.1.2] at hl
    simp only [Bool.and_self, if_true] at hl
    rw [hl, hL]
    obtain ⟨-, row, h1, hg, hi, hp, hr, h2, h3⟩ := upsertLinks_obj E (targetId s) L s.links hone
    refine ⟨row, h1, hg, hi, hp, hr, ?_, ?_, ?_, ?_, h2, h3⟩
    · intro g h; rw [hg, h]; rfl
    · intro g h; rw [hi, h]; rfl
    · intro g h; rw [hp, h]; rfl
    · intro g h; rw [hr, h]; rfl
  · intro hf
    rw [hl]
    have : (upsertLinks E (targetId s) body.links s.links).1 = s.links := by
      simp [upsertLinks, hf]
    rw [this]
    split <;> rfl

/-- Witness of the amended C13 on `contactStore`, whose links row for profile
1 has id 5: with `linksPayload` the row keeps id 5 and takes the two links of
the body, and with `barePayload` the links table is unchanged. -/
theorem put_upserts_links_witness :
    (∃ row,
      (putProfile Engine.sample stamp contactStore linksPayload).1.links.rows.filter
        (fun r => r.profile_id = targetId contactStore) = [row] ∧
      row.github = .text "https://github.com/ada" ∧
      row.resume = .text "https://example.org/cv" ∧
      row.linkedin = .null ∧ row.id = 5 ∧
      (putProfile Engine.sample stamp contactStore linksPayload).1.links.seq = 5) ∧
    (putProfile Engine.sample stamp contactStore barePayload).1.links = contactStore.links :=
  ⟨match (put_upserts_links Engine.sample stamp contactStore linksPayload).1 _ rfl
      (by decide) (by decide) with
    | ⟨row, h1, _, hi, _, _, hg, _, _, hr, _, hold⟩ =>
      ⟨row, h1, hg _ rfl, hr _ rfl, hi,
        (hold oldContact (by decide) (by decide)).1,
        (hold oldContact (by decide) (by decide)).2.2⟩,
   (put_upserts_links Engine.sample stamp contactStore barePayload).2 rfl⟩

/-! ## The setup routine and `GET /projects?skill=Python` -/

theorem setup_python_tags (E : Engine) (now : Clock) (db : Option Store) :
    ((setup E now db).project_skills.rows.filter
      (fun k => k.skill = .text "Python")).map (fun k => k.project_id) = [1, 3] := by
  simp [setup, seedData, wipe, insertEach, seedProjectSkills, Table.insert, List.filter_cons]

theorem setup_tagged (E : Engine) (now : Clock) (db : Option Store) (i : Int) :
    i ∈ distinct (((setup E now db).project_skills.rows.filter
      (fun k => k.skill = skillCell (some "Python"))).map (fun k => k.project_id)) ↔
      (i = 1 ∨ i = 3) := by
  rw [mem_distinct]
  simp [setup, seedData, wipe, insertEach, seedProjectSkills, Table.insert, List.filter_cons,
    skillCell]

/-- The projects table after the setup routine: the three seed projects, in
the order of the source, under the three ids after the counter the database
had. -/
theorem setup_projects (E : Engine) (now : Clock) (db : Option Store) :
    (setup E now db).projects.rows =
      (seedProjects E now).zipWith (fun mk i => mk i)
        [(initializeSchema db).projects.seq + 1, (initializeSchema db).projects.seq + 2,
         (initializeSchema db).projects.seq + 3] := by
  generalize hq : (initializeSchema db).projects.seq = q
  have h2 : q + 1 + 1 = q + 2 := by omega
  have h3 : q + 2 + 1 = q + 3 := by omega
  have hm : max (q + 2) (q + 1) = q + 2 := max_eq_left (by omega)
  simp only [setup, seedData, wipe, insertEach, seedProjects, Table.insert, nextId,
    List.foldl_cons, List.foldl_nil, List.map_nil, List.nil_append, List.map_cons,
    List.cons_append, max_self, List.zipWith_cons_cons, List.zipWith_nil_right, hq, h2, hm, h3]

theorem projectsQuery_setup (E : Engine) (now : Clock) (db : Option Store) :
    projectsQuery (setup E now db) (some "Python") =
      orderByDesc (fun r : ProjectRow => r.created_at)
        ((setup E now db).projects.rows.filter
          (fun r => decide (r.id = 1) || decide (r.id = 3))) := by
  have hpid : ∀ r ∈ (setup E now db).projects.rows, r.profile_id = 1 := by
    intro r hr
    rw [setup_projects] at hr
    simp only [seedProjects, List.zipWith_cons_cons, List.zipWith_nil_right, List.mem_cons,
      List.mem_singleton, List.not_mem_nil, or_false] at hr
    rcases hr with rfl | rfl | rfl <;> rfl
  have hnd : ((setup E now db).projects.rows.map fun r => r.id).Nodup := by
    rw [setup_projects]
    simp [seedProjects]
  have htr : truthy (queryParam (some "Python")) = true := by decide
  simp only [projectsQuery, htr, if_true]
  have hf : ((setup E now db).projects.rows.filter fun r =>
      decide (r.profile_id = 1) &&
        decide (r.id ∈ distinct (((setup E now db).project_skills.rows.filter
          (fun k => k.skill = skillCell (some "Python"))).map (fun k => k.project_id)))) =
      (setup E now db).projects.rows.filter (fun r => decide (r.id = 1) || decide (r.id = 3)) := by
    apply List.filter_congr
    intro r hr
    have htag := setup_tagged E now db r.id
    have hdec : decide (r.id ∈ distinct (((setup E now db).project_skills.rows.filter
        (fun k => k.skill = skillCell (some "Python"))).map (fun k => k.project_id))) =
        (decide (r.id = 1) || decide (r.id = 3)) := by
      rw [← Bool.decide_or]
      exact decide_eq_decide.2 htag
    rw [hdec, hpid r hr]
    simp
  rw [hf, distinct_of_nodup _ ((List.Nodup.of_map _ hnd).sublist (List.filter_sublist _))]

theorem readLinks_seed (E : Engine) (url : String) :
    readLinks (E.textCell (JSON.stringify (.arr [.str url]))) = some (.arr [.str url]) :=
  readLinks_stringify E (.arr [.str url]) [url] (Or.inl rfl)

/-- What `GET /projects?skill=Python` returns after the setup routine, by the
`AUTOINCREMENT` counter of `projects` the database had: the fraud-detection
and the waste-classifier project when it was 0, as on a new database file (in
this order when the inserts of the two read the same second), and no project
when it was 3 or more, as after an earlier run. -/
theorem setup_python_projects (E : Engine) (now : Clock) (db : Option Store) :
    ((initializeSchema db).projects.seq = 0 →
      ∃ all, getProjects (setup E now db) (some "Python") = .ok all ∧
        (all.map (fun p => (p.id, p.title))).Perm
          [(1, .text "Healthcare Insurance Fraud Detection"),
           (3, .text "TrashScan: Smart Waste Classifier")] ∧
        (now.project 0 = now.project 2 →
          all.map (fun p => (p.id, p.title)) =
            [(1, .text "Healthcare Insurance Fraud Detection"),
             (3, .text "TrashScan: Smart Waste Classifier")])) ∧
    (3 ≤ (initializeSchema db).projects.seq →
      getProjects (setup E now db) (some "Python") = .ok []) := by
  constructor
  · intro hq
    unfold getProjects
    rw [projectsQuery_setup, setup_projects, hq]
    by_cases hle : sqlLe (.text (now.project 2)) (.text (now.project 0)) = true
    · simp [seedProjects, List.filter_cons, orderByDesc, List.insertionSort, List.orderedInsert,
        descBy, hle, mapWithLinks, withLinks, readLinks_seed, textCell_str]
    · have hne : now.project 0 ≠ now.project 2 := by
        intro h
        rw [h] at hle
        exact hle (sqlLe_refl _)
      simp [seedProjects, List.filter_cons, orderByDesc, List.insertionSort, List.orderedInsert,
        descBy, hle, hne, mapWithLinks, withLinks, readLinks_seed, textCell_str,
        List.Perm.swap]
  · intro hq
    unfold getProjects
    rw [projectsQuery_setup, setup_projects]
    have h1 : ¬ (initializeSchema db).projects.seq + 1 = 1 := by omega
    have h2 : ¬ (initializeSchema db).projects.seq + 2 = 1 := by omega
    have h3 : ¬ (initializeSchema db).projects.seq + 3 = 1 := by omega
    have h4 : ¬ (initializeSchema db).projects.seq + 1 = 3 := by omega
    have h5 : ¬ (initializeSchema db).projects.seq + 2 = 3 := by omega
    have h6 : ¬ (initializeSchema db).projects.seq + 3 = 3 := by omega
    simp [seedProjects, List.filter_cons, orderByDesc, mapWithLinks, h1, h2, h3, h4, h5, h6]

set_option maxRecDepth 100000 in
/-- C11, evaluated: on a database file that does not exist yet the setup
routine gives the three projects the ids 1, 2, 3, and `GET
/projects?skill=Python` returns exactly the fraud-detection and the
waste-classifier project; when the routine runs again on that database the
`AUTOINCREMENT` counter, which the wipe leaves at 3, gives the projects the
ids 4, 5, 6 while the `project_skills` rows still name 1, 2, 3, and the same
request returns no project. -/
theorem seed_python_projects_fresh_and_rerun :
    (∃ all, getProjects (setup Engine.sample stamp none) (some "Python") = .ok all ∧
      all.map (fun p => (p.id, p.title)) =
        [(1, .text "Healthcare Insurance Fraud Detection"),
         (3, .text "TrashScan: Smart Waste Classifier")]) ∧
    (setup Engine.sample stamp (some (setup Engine.sample stamp none))).projects.rows.map
        (fun r => (r.id, r.title)) =
      [(4, .text "Healthcare Insurance Fraud Detection"),
       (5, .text "Personal Finance Dashboard"),
       (6, .text "TrashScan: Smart Waste Classifier")] ∧
    ((setup Engine.sample stamp (some (setup Engine.sample stamp none))).project_skills.rows.filter
        (fun k => k.skill = .text "Python")).map (fun k => k.project_id) = [1, 3] ∧
    getProjects (setup Engine.sample stamp (some (setup Engine.sample stamp none)))
      (some "Python") = .ok [] := by
  refine ⟨⟨_, rfl, by decide⟩, by decide, by decide, rfl⟩

end Predusk
